import Mathlib

/-!
# Stingray sensor adapters: accelerometer (KXTF9) and ambient light (MAX9635)

A shallow embedding of `sensors/AccelerationSensor.cpp` and `sensors/LightSensor.cpp`.

* Member variables become fields of a state record; every method is a pure function from the
  state, its arguments and the outcome of the one system call it may issue to a result record
  holding the return value, the new state, the output slots written and the trace of effects.
* `int` members and arguments are `Int`; the unsigned 16-bit `type` and `code` of a kernel record
  are `Nat`.
* The `float` payload is an abstract type `F` with the operations the code uses: conversion from
  an integer (`IntCast`, `NatCast`), multiplication and the zero written by `memset`.
-/

namespace Sensors

/-! ## Kernel and HAL constants -/

/-- The value of `EV_SYN` in `linux/input.h`. -/
def EV_SYN : Nat := 0

/-- The value of `EV_ABS` in `linux/input.h`. -/
def EV_ABS : Nat := 3

/-- The value of `EV_LED` in `linux/input.h`. -/
def EV_LED : Nat := 17

/-- The value of `EINVAL` in `errno.h`. -/
def EINVAL : Int := 22

/-- The value of `SENSOR_TYPE_ACCELEROMETER` in `hardware/sensors.h`. -/
def SENSOR_TYPE_ACCELEROMETER : Int := 1

/-- The value of `SENSOR_TYPE_LIGHT` in `hardware/sensors.h`. -/
def SENSOR_TYPE_LIGHT : Int := 5

/-- The value of `SENSOR_STATUS_ACCURACY_HIGH` in `hardware/sensors.h`. -/
def SENSOR_STATUS_ACCURACY_HIGH : Int := 3

/-- The value of `sizeof(sensors_event_t)`, fixed by `hardware/sensors.h`. -/
def SIZEOF_SENSORS_EVENT_T : Int := 104

/-- Platform binding: the compile-time constants of the repository's `nusensors.h`, which the
two adapters use but do not define. They are parameters of the embedding. -/
structure Platform (F : Type) where
  /-- Sensor handle of the accelerometer. -/
  ID_A : Int
  /-- Sensor handle of the light sensor. -/
  ID_L : Int
  /-- Kernel axis code of the accelerometer x axis. -/
  EVENT_TYPE_ACCEL_X : Nat
  /-- Kernel axis code of the accelerometer y axis. -/
  EVENT_TYPE_ACCEL_Y : Nat
  /-- Kernel axis code of the accelerometer z axis. -/
  EVENT_TYPE_ACCEL_Z : Nat
  /-- Kernel code of the light channel. -/
  EVENT_TYPE_LIGHT : Nat
  /-- Scale of the x axis. -/
  CONVERT_A_X : F
  /-- Scale of the y axis. -/
  CONVERT_A_Y : F
  /-- Scale of the z axis. -/
  CONVERT_A_Z : F
  /-- Width in bits of `size_t`, the parameter type of `LightSensor::indexToValue`. -/
  SIZE_T_BITS : Nat

/-! ## Data model -/

/-- Kernel `struct timeval`. -/
structure timeval where
  tv_sec : Int
  tv_usec : Int
deriving DecidableEq, Repr

/-- Kernel `struct input_event`. -/
structure input_event where
  time : timeval
  type : Nat
  code : Nat
  value : Int
deriving DecidableEq, Repr

/-- HAL `sensors_vec_t`: the view `acceleration` of the payload. -/
structure sensors_vec_t (F : Type) where
  x : F
  y : F
  z : F
  status : Int
deriving DecidableEq, Repr

/-- HAL `sensors_event_t`. The payload union is represented by the two views the adapters use:
`acceleration` (accelerometer) and `light` (light sensor). -/
structure sensors_event_t (F : Type) where
  version : Int
  sensor : Int
  type : Int
  timestamp : Int
  acceleration : sensors_vec_t F
  light : F
deriving DecidableEq, Repr

/-- Modelled from the spec: `SensorBase::timevalToNano` is declared in `SensorBase.h`, which is
not among the sources. The spec gives the conversion of a kernel time to nanoseconds as
`sec * 10^9 + usec * 10^3`. -/
def timevalToNano (t : timeval) : Int :=
  t.tv_sec * 1000000000 + t.tv_usec * 1000

/-! ## System calls and effects -/

/-- Outcome of an `ioctl(2)` that passes data to the driver: the value returned and the value
of `errno` after the call. -/
structure IoctlOutcome where
  ret : Int
  errno : Int
deriving DecidableEq, Repr

/-- POSIX: a system call that fails (returns a negative value) sets `errno` to a positive
error number. -/
def IoctlOutcome.wellFormed (io : IoctlOutcome) : Prop :=
  io.ret < 0 → 0 < io.errno

instance (io : IoctlOutcome) : Decidable io.wellFormed := by
  unfold IoctlOutcome.wellFormed; infer_instance

/-- Outcome of `ioctl(dev_fd, KXTF9_IOCTL_GET_ENABLE, &flags)`: the value returned and the
content of `flags` after the call. -/
structure GetEnableOutcome where
  ret : Int
  flags : Int
deriving DecidableEq, Repr

/-- Outcome of `ioctl(data_fd, EVIOCGABS(axis), &absinfo)`: the value returned and the content
of `absinfo.value` after the call. -/
structure AbsOutcome where
  ret : Int
  value : Int
deriving DecidableEq, Repr

/-- Outcome of the single `read(2)` performed by the reader's `fill`: an error number, or the
records the descriptor has ready, in arrival order. -/
inductive ReadOutcome where
  | error (errno : Int)
  | records (rs : List input_event)
deriving DecidableEq, Repr

/-- The ioctl requests the accelerometer issues on its descriptors, with their input argument. -/
inductive IoctlCall where
  | KXTF9_IOCTL_GET_ENABLE
  | KXTF9_IOCTL_SET_ENABLE (flags : Int)
  | KXTF9_IOCTL_SET_DELAY (delay : Int)
  | EVIOCGABS (axis : Nat)
deriving DecidableEq, Repr

/-- The `LOGE` lines of the two adapters. -/
inductive LogEntry where
  | accelGetEnableFlag (flags : Int)
  | accelEnableFlag (flags : Int)
  | setEnableFailed (err : Int)
  | accelUnknownEvent (type code : Nat)
  | lightUnknownEvent (type code : Nat)
deriving DecidableEq, Repr

/-- Observable effects of a call, in program order. -/
inductive Effect where
  | ioctl (req : IoctlCall)
  | fill
  | getTimestamp
  | log (entry : LogEntry)
deriving DecidableEq, Repr

/-- The ioctl requests of a trace. -/
def ioctlsOf : List Effect → List IoctlCall
  | [] => []
  | Effect.ioctl req :: es => req :: ioctlsOf es
  | _ :: es => ioctlsOf es

/-- The log lines of a trace. -/
def logsOf : List Effect → List LogEntry
  | [] => []
  | Effect.log entry :: es => entry :: logsOf es
  | _ :: es => logsOf es

/-! ## Input-record reader -/

/-- Modelled from the spec: `InputEventCircularReader` (`InputEventReader.h/.cpp`) is not among
the sources. The spec describes a bounded buffer of capacity `N` whose records are delivered in
arrival order without coalescing; `mBuffer` holds the buffered records, oldest first. -/
structure InputEventCircularReader where
  numEvents : Nat
  mBuffer : List input_event
deriving DecidableEq, Repr

/-- Modelled from the spec: `fill(fd)` performs a single best-effort read of the records that
fit and returns the number of records now available, or a negative error propagated from the
read. -/
def InputEventCircularReader.fill (r : InputEventCircularReader) (rd : ReadOutcome) :
    InputEventCircularReader × Int :=
  match rd with
  | ReadOutcome.error errno => (r, -errno)
  | ReadOutcome.records rs =>
    let buf := r.mBuffer ++ rs.take (r.numEvents - r.mBuffer.length)
    ({ r with mBuffer := buf }, (buf.length : Int))

/-- Modelled from the spec: `readEvent(&out)` yields the next buffered record without consuming
it, or nothing when the buffer is drained. -/
def InputEventCircularReader.readEvent (r : InputEventCircularReader) : Option input_event :=
  r.mBuffer.head?

/-- Modelled from the spec: `next()` advances past the record most recently returned by
`readEvent`. -/
def InputEventCircularReader.next (r : InputEventCircularReader) : InputEventCircularReader :=
  { r with mBuffer := r.mBuffer.tail }

/-! ## Result records -/

/-- Result of a control call (`enable`, `enableOrientation`, `setDelay`). -/
structure CallResult (S : Type) where
  ret : Int
  sensor : S
  effects : List Effect
deriving DecidableEq, Repr

/-- Result of `readEvents`: `data` lists the output slots written, `data[0]` first. -/
structure ReadResult (S F : Type) where
  ret : Int
  sensor : S
  data : List (sensors_event_t F)
  effects : List Effect
deriving DecidableEq, Repr

/-- Local variables and members that the decode loop of `readEvents` updates. -/
structure LoopState (F : Type) where
  count : Int
  numEventReceived : Int
  data : List (sensors_event_t F)
  mPendingEvent : sensors_event_t F
  effects : List Effect
deriving DecidableEq, Repr

/-- The loop `while (count && mInputReader.readEvent(&event)) { body; mInputReader.next(); }`
that both `readEvents` methods run, on the buffered records (`readEvent` yields the head of the
list, `next` drops it); `body` is the loop body of the adapter. It returns the final loop state
and the records left in the reader. -/
def readLoop {F : Type} (body : LoopState F → input_event → LoopState F) :
    List input_event → LoopState F → LoopState F × List input_event
  | [], st => (st, [])
  | event :: rest, st =>
    if st.count = 0 then (st, event :: rest)
    else readLoop body rest (body st event)

/-! ## Accelerometer adapter (`AccelerationSensor.cpp`) -/

/-- Members of `AccelerationSensor`. -/
structure AccelerationSensor (F : Type) where
  mEnabled : Int
  mOrientationEnabled : Int
  mPendingEvent : sensors_event_t F
  mInputReader : InputEventCircularReader
deriving DecidableEq, Repr

section Accel

variable {F : Type} [Mul F] [IntCast F] [NatCast F] [Zero F]

/-- The constructor `AccelerationSensor::AccelerationSensor()`, given the outcomes of the
`KXTF9_IOCTL_GET_ENABLE` query and of the three `EVIOCGABS` queries (each is consulted only where
the code issues the call). -/
def AccelerationSensor.new (P : Platform F) (ge : GetEnableOutcome) (ax ay az : AbsOutcome) :
    AccelerationSensor F :=
  let pe0 : sensors_event_t F :=
    { version := SIZEOF_SENSORS_EVENT_T
      sensor := P.ID_A
      type := SENSOR_TYPE_ACCELEROMETER
      timestamp := 0
      acceleration := { x := 0, y := 0, z := 0, status := SENSOR_STATUS_ACCURACY_HIGH }
      light := 0 }
  let s0 : AccelerationSensor F :=
    { mEnabled := 0
      mOrientationEnabled := 0
      mPendingEvent := pe0
      mInputReader := { numEvents := 32, mBuffer := [] } }
  if ge.ret = 0 then
    if ge.flags ≠ 0 then
      let pe1 : sensors_event_t F :=
        if ax.ret = 0 then
          { pe0 with acceleration := { pe0.acceleration with x := (ax.value : F) * P.CONVERT_A_X } }
        else pe0
      let pe2 : sensors_event_t F :=
        if ay.ret = 0 then
          { pe1 with acceleration := { pe1.acceleration with y := (ay.value : F) * P.CONVERT_A_Y } }
        else pe1
      let pe3 : sensors_event_t F :=
        if az.ret = 0 then
          { pe2 with acceleration := { pe2.acceleration with z := (az.value : F) * P.CONVERT_A_Z } }
        else pe2
      { s0 with mEnabled := 1, mPendingEvent := pe3 }
    else s0
  else s0

/-- The method `AccelerationSensor::enable(int32_t, int en)`; `io` is the outcome of the
`KXTF9_IOCTL_SET_ENABLE` ioctl, consulted only when the call is issued. -/
def AccelerationSensor.enable (s : AccelerationSensor F) (_handle : Int) (en : Int)
    (io : IoctlOutcome) : CallResult (AccelerationSensor F) :=
  let flags : Int := if en ≠ 0 then 1 else 0
  if flags ≠ s.mEnabled then
    if s.mOrientationEnabled ≠ 0 ∧ ¬ (en ≠ 0) then
      { ret := 0
        sensor := { s with mEnabled := flags }
        effects := [Effect.log (LogEntry.accelEnableFlag flags)] }
    else
      let err : Int := if io.ret < 0 then -io.errno else 0
      { ret := err
        sensor := if err = 0 then { s with mEnabled := flags } else s
        effects :=
          [Effect.log (LogEntry.accelEnableFlag flags),
            Effect.ioctl (IoctlCall.KXTF9_IOCTL_SET_ENABLE flags)]
          ++ (if err ≠ 0 then [Effect.log (LogEntry.setEnableFailed err)] else []) }
  else
    { ret := 0, sensor := s, effects := [] }

/-- The method `AccelerationSensor::enableOrientation(int en)`. -/
def AccelerationSensor.enableOrientation (s : AccelerationSensor F) (en : Int)
    (io : IoctlOutcome) : CallResult (AccelerationSensor F) :=
  let flags : Int := if en ≠ 0 then 1 else 0
  if flags ≠ s.mOrientationEnabled then
    if s.mEnabled ≠ 0 ∧ ¬ (en ≠ 0) then
      { ret := 0
        sensor := { s with mOrientationEnabled := flags }
        effects := [] }
    else
      let err : Int := if io.ret < 0 then -io.errno else 0
      { ret := err
        sensor := if err = 0 then { s with mOrientationEnabled := flags } else s
        effects :=
          [Effect.ioctl (IoctlCall.KXTF9_IOCTL_SET_ENABLE flags)]
          ++ (if err ≠ 0 then [Effect.log (LogEntry.setEnableFailed err)] else []) }
  else
    { ret := 0, sensor := s, effects := [] }

/-- Conversion of a 64-bit integer to `short`: reduction modulo `2^16`, read as signed. -/
def toShort (v : Int) : Int :=
  (v + 32768) % 65536 - 32768

/-- The method `AccelerationSensor::setDelay(int64_t ns)`; `io` is the outcome of the
`KXTF9_IOCTL_SET_DELAY` ioctl, consulted only when the call is issued. -/
def AccelerationSensor.setDelay (s : AccelerationSensor F) (ns : Int) (io : IoctlOutcome) :
    CallResult (AccelerationSensor F) :=
  if ns < 0 then
    { ret := -EINVAL, sensor := s, effects := [] }
  else
    let delay : Int := toShort (Int.tdiv ns 1000000)
    if io.ret = 0 then
      { ret := -io.errno
        sensor := s
        effects := [Effect.ioctl (IoctlCall.KXTF9_IOCTL_SET_DELAY delay)] }
    else
      { ret := 0
        sensor := s
        effects := [Effect.ioctl (IoctlCall.KXTF9_IOCTL_SET_DELAY delay)] }

/-- The method `AccelerationSensor::processEvent(int code, int value)`, acting on the pending
sample. -/
def AccelerationSensor.processEvent (P : Platform F) (pe : sensors_event_t F) (code : Nat)
    (value : Int) : sensors_event_t F :=
  if code = P.EVENT_TYPE_ACCEL_X then
    { pe with acceleration := { pe.acceleration with x := (value : F) * P.CONVERT_A_X } }
  else if code = P.EVENT_TYPE_ACCEL_Y then
    { pe with acceleration := { pe.acceleration with y := (value : F) * P.CONVERT_A_Y } }
  else if code = P.EVENT_TYPE_ACCEL_Z then
    { pe with acceleration := { pe.acceleration with z := (value : F) * P.CONVERT_A_Z } }
  else pe

/-- One pass through the body of the `while` loop of `AccelerationSensor::readEvents` for the
record `event` (the call of `mInputReader.next()` is made by `readLoop`). -/
def AccelerationSensor.readBody (P : Platform F) (mEnabled : Int) (st : LoopState F)
    (event : input_event) : LoopState F :=
  if event.type = EV_ABS then
    { st with mPendingEvent := AccelerationSensor.processEvent P st.mPendingEvent event.code event.value }
  else if event.type = EV_SYN then
    let pe : sensors_event_t F := { st.mPendingEvent with timestamp := timevalToNano event.time }
    if mEnabled ≠ 0 then
      { st with
        mPendingEvent := pe
        data := st.data ++ [pe]
        count := st.count - 1
        numEventReceived := st.numEventReceived + 1 }
    else
      { st with mPendingEvent := pe }
  else
    { st with
      effects := st.effects ++ [Effect.log (LogEntry.accelUnknownEvent event.type event.code)] }

/-- The method `AccelerationSensor::readEvents(sensors_event_t* data, int count)`; `rd` is the
outcome of the read performed by `mInputReader.fill(data_fd)`, consulted only when the call is
issued. -/
def AccelerationSensor.readEvents (P : Platform F) (s : AccelerationSensor F) (count : Int)
    (rd : ReadOutcome) : ReadResult (AccelerationSensor F) F :=
  if count < 1 then
    { ret := -EINVAL, sensor := s, data := [], effects := [] }
  else
    let filled := s.mInputReader.fill rd
    if filled.2 < 0 then
      { ret := filled.2
        sensor := { s with mInputReader := filled.1 }
        data := []
        effects := [Effect.fill] }
    else
      let st0 : LoopState F :=
        { count := count
          numEventReceived := 0
          data := []
          mPendingEvent := s.mPendingEvent
          effects := [Effect.fill] }
      let out := readLoop (AccelerationSensor.readBody P s.mEnabled) filled.1.mBuffer st0
      { ret := out.1.numEventReceived
        sensor :=
          { s with
            mPendingEvent := out.1.mPendingEvent
            mInputReader := { filled.1 with mBuffer := out.2 } }
        data := out.1.data
        effects := out.1.effects }

end Accel

/-! ## Light adapter (`LightSensor.cpp`) -/

/-- Members of `LightSensor`. -/
structure LightSensor (F : Type) where
  mEnabled : Int
  mInputReader : InputEventCircularReader
  mPendingEvent : sensors_event_t F
  mHasPendingEvent : Bool
deriving DecidableEq, Repr

section Light

variable {F : Type} [Mul F] [IntCast F] [NatCast F] [Zero F]

/-- The constructor `LightSensor::LightSensor()`. -/
def LightSensor.new (P : Platform F) : LightSensor F :=
  { mEnabled := 0
    mInputReader := { numEvents := 4, mBuffer := [] }
    mPendingEvent :=
      { version := SIZEOF_SENSORS_EVENT_T
        sensor := P.ID_L
        type := SENSOR_TYPE_LIGHT
        timestamp := 0
        acceleration := { x := 0, y := 0, z := 0, status := 0 }
        light := 0 }
    mHasPendingEvent := false }

/-- The method `LightSensor::enable(int32_t, int en)`. -/
def LightSensor.enable (s : LightSensor F) (_handle : Int) (en : Int) :
    CallResult (LightSensor F) :=
  let en1 : Int := if en ≠ 0 then 1 else 0
  let s1 : LightSensor F := if en1 ≠ 0 then { s with mHasPendingEvent := true } else s
  { ret := 0, sensor := { s1 with mEnabled := en1 }, effects := [] }

/-- The method `LightSensor::hasPendingEvents()`. -/
def LightSensor.hasPendingEvents (s : LightSensor F) : Bool :=
  s.mHasPendingEvent

/-- The method `LightSensor::indexToValue(size_t index)`. -/
def LightSensor.indexToValue (index : Nat) : F :=
  (index : F)

/-- Conversion of the `__s32` field `value` to the `size_t` parameter of `indexToValue`:
reduction modulo `2^SIZE_T_BITS`. -/
def toSizeT (P : Platform F) (value : Int) : Nat :=
  (value % (2 ^ P.SIZE_T_BITS : Int)).toNat

/-- One pass through the body of the `while` loop of `LightSensor::readEvents` for the record
`event` (the call of `mInputReader.next()` is made by `readLoop`). -/
def LightSensor.readBody (P : Platform F) (mEnabled : Int) (st : LoopState F)
    (event : input_event) : LoopState F :=
  if event.type = EV_LED then
    if event.code = P.EVENT_TYPE_LIGHT then
      { st with
        mPendingEvent :=
          { st.mPendingEvent with light := LightSensor.indexToValue (toSizeT P event.value) } }
    else st
  else if event.type = EV_SYN then
    let pe : sensors_event_t F := { st.mPendingEvent with timestamp := timevalToNano event.time }
    if mEnabled ≠ 0 then
      { st with
        mPendingEvent := pe
        data := st.data ++ [pe]
        count := st.count - 1
        numEventReceived := st.numEventReceived + 1 }
    else
      { st with mPendingEvent := pe }
  else
    if event.type = 4 ∧ event.code = 3 then st
    else
      { st with
        effects := st.effects ++ [Effect.log (LogEntry.lightUnknownEvent event.type event.code)] }

/-- The method `LightSensor::readEvents(sensors_event_t* data, int count)`; `now` is the value
returned by `getTimestamp()` and `rd` the outcome of the read performed by
`mInputReader.fill(data_fd)`, each consulted only when the call is issued. -/
def LightSensor.readEvents (P : Platform F) (s : LightSensor F) (count : Int) (now : Int)
    (rd : ReadOutcome) : ReadResult (LightSensor F) F :=
  if count < 1 then
    { ret := -EINVAL, sensor := s, data := [], effects := [] }
  else if s.mHasPendingEvent then
    let pe : sensors_event_t F := { s.mPendingEvent with timestamp := now }
    { ret := if s.mEnabled ≠ 0 then 1 else 0
      sensor := { s with mHasPendingEvent := false, mPendingEvent := pe }
      data := [pe]
      effects := [Effect.getTimestamp] }
  else
    let filled := s.mInputReader.fill rd
    if filled.2 < 0 then
      { ret := filled.2
        sensor := { s with mInputReader := filled.1 }
        data := []
        effects := [Effect.fill] }
    else
      let st0 : LoopState F :=
        { count := count
          numEventReceived := 0
          data := []
          mPendingEvent := s.mPendingEvent
          effects := [Effect.fill] }
      let out := readLoop (LightSensor.readBody P s.mEnabled) filled.1.mBuffer st0
      { ret := out.1.numEventReceived
        sensor :=
          { s with
            mPendingEvent := out.1.mPendingEvent
            mInputReader := { filled.1 with mBuffer := out.2 } }
        data := out.1.data
        effects := out.1.effects }

end Light

/-! ## The accelerometer and its driver as a system -/

/-- A call on the accelerometer adapter together with the outcome of the system call it may
issue. -/
inductive AccelCall where
  | enable (handle : Int) (en : Int) (io : IoctlOutcome)
  | enableOrientation (en : Int) (io : IoctlOutcome)
  | setDelay (ns : Int) (io : IoctlOutcome)
  | readEvents (count : Int) (rd : ReadOutcome)
deriving DecidableEq, Repr

/-- Well-formed outcomes: failing ioctls set a positive `errno`. -/
def AccelCall.wellFormed : AccelCall → Prop
  | AccelCall.enable _ _ io => io.wellFormed
  | AccelCall.enableOrientation _ io => io.wellFormed
  | AccelCall.setDelay _ io => io.wellFormed
  | AccelCall.readEvents _ _ => True

/-- The adapter, the driver's hardware enable flag `hw`, and the history `consumed` of the
records the decode loop has consumed so far (a ghost field). -/
structure AccelSystem (F : Type) where
  sensor : AccelerationSensor F
  hw : Int
  consumed : List input_event

section System

variable {F : Type} [Mul F] [IntCast F] [NatCast F] [Zero F]

/-- The hardware enable flag after a call: the argument of the last `KXTF9_IOCTL_SET_ENABLE`
of the trace if the ioctl succeeded (returned a non-negative value), and unchanged otherwise. -/
def hwAfter (hw : Int) (effects : List Effect) (io : IoctlOutcome) : Int :=
  if io.ret < 0 then hw
  else
    (ioctlsOf effects).foldl
      (fun h req =>
        match req with
        | IoctlCall.KXTF9_IOCTL_SET_ENABLE flags => flags
        | _ => h)
      hw

/-- The system after construction: the hardware flag is the value reported by
`KXTF9_IOCTL_GET_ENABLE`. -/
def AccelSystem.init (P : Platform F) (ge : GetEnableOutcome) (ax ay az : AbsOutcome) :
    AccelSystem F :=
  { sensor := AccelerationSensor.new P ge ax ay az, hw := ge.flags, consumed := [] }

/-- One call on the adapter. -/
def AccelSystem.step (P : Platform F) (sys : AccelSystem F) : AccelCall → AccelSystem F
  | AccelCall.enable handle en io =>
    let r := sys.sensor.enable handle en io
    { sys with sensor := r.sensor, hw := hwAfter sys.hw r.effects io }
  | AccelCall.enableOrientation en io =>
    let r := sys.sensor.enableOrientation en io
    { sys with sensor := r.sensor, hw := hwAfter sys.hw r.effects io }
  | AccelCall.setDelay ns io =>
    let r := sys.sensor.setDelay ns io
    { sys with sensor := r.sensor }
  | AccelCall.readEvents count rd =>
    let r := AccelerationSensor.readEvents P sys.sensor count rd
    let before := if count < 1 then sys.sensor.mInputReader.mBuffer
      else (sys.sensor.mInputReader.fill rd).1.mBuffer
    { sys with
      sensor := r.sensor
      consumed :=
        sys.consumed ++ before.take (before.length - r.sensor.mInputReader.mBuffer.length) }

/-- A sequence of calls, in order. -/
def AccelSystem.run (P : Platform F) (sys : AccelSystem F) (calls : List AccelCall) :
    AccelSystem F :=
  calls.foldl (AccelSystem.step P) sys

end System

/-! ## Concrete inputs -/

/-- A platform binding over the integers (scales 2, 3 and 5), on which the definitions can be
evaluated. -/
def examplePlatform : Platform Int :=
  { ID_A := 0
    ID_L := 4
    EVENT_TYPE_ACCEL_X := 0
    EVENT_TYPE_ACCEL_Y := 1
    EVENT_TYPE_ACCEL_Z := 2
    EVENT_TYPE_LIGHT := 8
    CONVERT_A_X := 2
    CONVERT_A_Y := 3
    CONVERT_A_Z := 5
    SIZE_T_BITS := 32 }

/-- The accelerometer adapter constructed while the driver reports the hardware disabled. -/
def exampleAccel : AccelerationSensor Int :=
  AccelerationSensor.new examplePlatform ⟨0, 0⟩ ⟨0, 0⟩ ⟨0, 0⟩ ⟨0, 0⟩

/-- The light adapter after construction. -/
def exampleLight : LightSensor Int :=
  LightSensor.new examplePlatform

/-- A record of type `EV_ABS`. -/
def absRecord (code : Nat) (value : Int) : input_event :=
  { time := { tv_sec := 0, tv_usec := 0 }, type := EV_ABS, code := code, value := value }

/-- A record of type `EV_SYN` with kernel time `(sec, usec)`. -/
def synRecord (sec usec : Int) : input_event :=
  { time := { tv_sec := sec, tv_usec := usec }, type := EV_SYN, code := 0, value := 0 }

/-! ## Specification functions for the decode loop -/

/-- The SYNC records of a sequence, in order. -/
def syncRecords (buf : List input_event) : List input_event :=
  buf.filter (fun e => decide (e.type = EV_SYN))

/-- The update of the pending sample made by the accelerometer loop body for one record. -/
def AccelerationSensor.pendingAfter {F : Type} [Mul F] [IntCast F] (P : Platform F)
    (pe : sensors_event_t F) (event : input_event) : sensors_event_t F :=
  if event.type = EV_ABS then AccelerationSensor.processEvent P pe event.code event.value
  else if event.type = EV_SYN then { pe with timestamp := timevalToNano event.time }
  else pe

/-- The update of the pending sample made by the light loop body for one record. -/
def LightSensor.pendingAfter {F : Type} [NatCast F] (P : Platform F)
    (pe : sensors_event_t F) (event : input_event) : sensors_event_t F :=
  if event.type = EV_LED then
    if event.code = P.EVENT_TYPE_LIGHT then
      { pe with light := LightSensor.indexToValue (toSizeT P event.value) }
    else pe
  else if event.type = EV_SYN then { pe with timestamp := timevalToNano event.time }
  else pe

/-- The value of the most recent ABS record for the axis `code` among `recs`, if there is
one. -/
def lastAbsValue (code : Nat) (recs : List input_event) : Option Int :=
  ((recs.filter (fun e => decide (e.type = EV_ABS ∧ e.code = code))).getLast?).map
    (fun e => e.value)

/-- The component an axis is expected to carry after the records `recs`: `v * scale` for the
value `v` of the most recent ABS record of the axis, and `init` when there is none. -/
def axisComponent {F : Type} [Mul F] [IntCast F] (scale init : F) (code : Nat)
    (recs : List input_event) : F :=
  match lastAbsValue code recs with
  | some v => (v : F) * scale
  | none => init

/-- What the decode-loop bodies of the two adapters have in common: given the latch `en`, a
record emits exactly when it is a SYNC and the latch is set; an emission appends the updated
pending sample, decrements `count` and increments `numEventReceived`; the pending sample is
updated by `upd`, which on a SYNC stamps the record's time. -/
structure DecodeBody {F : Type} (en : Int)
    (upd : sensors_event_t F → input_event → sensors_event_t F)
    (body : LoopState F → input_event → LoopState F) : Prop where
  pending_eq : ∀ st ev, (body st ev).mPendingEvent = upd st.mPendingEvent ev
  upd_sync : ∀ pe ev, ev.type = EV_SYN → upd pe ev = { pe with timestamp := timevalToNano ev.time }
  count_eq : ∀ st ev,
    (body st ev).count = if ev.type = EV_SYN ∧ en ≠ 0 then st.count - 1 else st.count
  num_eq : ∀ st ev,
    (body st ev).numEventReceived
      = if ev.type = EV_SYN ∧ en ≠ 0 then st.numEventReceived + 1 else st.numEventReceived
  data_eq : ∀ st ev,
    (body st ev).data
      = if ev.type = EV_SYN ∧ en ≠ 0 then st.data ++ [upd st.mPendingEvent ev] else st.data

/-- The hardware-on invariant: the driver's enable flag is set exactly when one of the two
latches is set. -/
def AccelSystem.hardwareOnIffLatched {F : Type} (sys : AccelSystem F) : Prop :=
  sys.hw ≠ 0 ↔ (sys.sensor.mEnabled ≠ 0 ∨ sys.sensor.mOrientationEnabled ≠ 0)

/-- The records of a sequence other than the spurious ones, those with type 4 and code 3. -/
def dropSpurious (buf : List input_event) : List input_event :=
  buf.filter (fun e => !decide (e.type = 4 ∧ e.code = 3))

/-- The records up to and including the `n`-th SYNC record, or all records when there are fewer
than `n` SYNC records: what a call with capacity `n` consumes while the latch is set. -/
def uptoSync : Nat → List input_event → List input_event
  | 0, _ => []
  | _ + 1, [] => []
  | n + 1, event :: rest =>
    if event.type = EV_SYN then event :: uptoSync n rest
    else event :: uptoSync (n + 1) rest

/-! ## Enable reconciliation of the accelerometer -/

section EnableTheorems

variable {F : Type}

/-- C1: the dual-client truth table. When the SET_ENABLE ioctl succeeds where it is issued:
(0,0) + enable(true) gives (1,0) and issues SET_ENABLE(1); (1,0) + enableOrientation(true) gives
(1,1) and issues SET_ENABLE(1); (1,1) + enable(false) gives (0,1) and issues no ioctl;
(0,1) + enableOrientation(false) gives (0,0) and issues SET_ENABLE(0);
(1,1) + enableOrientation(false) gives (1,0) and issues no ioctl; each call returns 0. -/
theorem C1_enable_truth_table (s : AccelerationSensor F) (handle en : Int) (io : IoctlOutcome)
    (hio : 0 ≤ io.ret) (hen : en ≠ 0) :
    (s.mEnabled = 0 → s.mOrientationEnabled = 0 →
      (s.enable handle en io).ret = 0 ∧
      (s.enable handle en io).sensor.mEnabled = 1 ∧
      (s.enable handle en io).sensor.mOrientationEnabled = 0 ∧
      ioctlsOf (s.enable handle en io).effects = [IoctlCall.KXTF9_IOCTL_SET_ENABLE 1]) ∧
    (s.mEnabled = 1 → s.mOrientationEnabled = 0 →
      (s.enableOrientation en io).ret = 0 ∧
      (s.enableOrientation en io).sensor.mEnabled = 1 ∧
      (s.enableOrientation en io).sensor.mOrientationEnabled = 1 ∧
      ioctlsOf (s.enableOrientation en io).effects = [IoctlCall.KXTF9_IOCTL_SET_ENABLE 1]) ∧
    (s.mEnabled = 1 → s.mOrientationEnabled = 1 →
      (s.enable handle 0 io).ret = 0 ∧
      (s.enable handle 0 io).sensor.mEnabled = 0 ∧
      (s.enable handle 0 io).sensor.mOrientationEnabled = 1 ∧
      ioctlsOf (s.enable handle 0 io).effects = []) ∧
    (s.mEnabled = 0 → s.mOrientationEnabled = 1 →
      (s.enableOrientation 0 io).ret = 0 ∧
      (s.enableOrientation 0 io).sensor.mEnabled = 0 ∧
      (s.enableOrientation 0 io).sensor.mOrientationEnabled = 0 ∧
      ioctlsOf (s.enableOrientation 0 io).effects = [IoctlCall.KXTF9_IOCTL_SET_ENABLE 0]) ∧
    (s.mEnabled = 1 → s.mOrientationEnabled = 1 →
      (s.enableOrientation 0 io).ret = 0 ∧
      (s.enableOrientation 0 io).sensor.mEnabled = 1 ∧
      (s.enableOrientation 0 io).sensor.mOrientationEnabled = 0 ∧
      ioctlsOf (s.enableOrientation 0 io).effects = []) := by
  have hnot : ¬ io.ret < 0 := not_lt.mpr hio
  refine ⟨?_, ?_, ?_, ?_, ?_⟩ <;> intro hE hO <;>
    simp [AccelerationSensor.enable, AccelerationSensor.enableOrientation, hE, hO, hen, hnot,
      ioctlsOf]

/-- The first row of the truth table on the freshly constructed adapter. -/
theorem C1_enable_truth_table_witness :
    (0 : Int) ≤ (IoctlOutcome.mk 0 0).ret ∧ (1 : Int) ≠ 0 ∧
    (exampleAccel.enable 0 1 ⟨0, 0⟩).ret = 0 ∧
    (exampleAccel.enable 0 1 ⟨0, 0⟩).sensor.mEnabled = 1 ∧
    (exampleAccel.enable 0 1 ⟨0, 0⟩).sensor.mOrientationEnabled = 0 ∧
    ioctlsOf (exampleAccel.enable 0 1 ⟨0, 0⟩).effects = [IoctlCall.KXTF9_IOCTL_SET_ENABLE 1] :=
  ⟨by decide, by decide,
    (C1_enable_truth_table exampleAccel 0 1 ⟨0, 0⟩ (by decide) (by decide)).1 rfl rfl⟩

end EnableTheorems

/-! ## The hardware-on invariant -/

/-- The state right after construction satisfies the hardware-on invariant when the
GET_ENABLE query succeeded. -/
theorem AccelSystem.init_hardwareOnIffLatched {F : Type} [Mul F] [IntCast F] [Zero F]
    (P : Platform F) (ge : GetEnableOutcome) (ax ay az : AbsOutcome) (hge : ge.ret = 0) :
    (AccelSystem.init P ge ax ay az).hardwareOnIffLatched := by
  unfold AccelSystem.hardwareOnIffLatched AccelSystem.init AccelerationSensor.new
  by_cases hf : ge.flags = 0 <;> simp [hge, hf]

/-- Every call preserves the hardware-on invariant. -/
theorem AccelSystem.step_hardwareOnIffLatched {F : Type} [Mul F] [IntCast F]
    (P : Platform F) (sys : AccelSystem F) (c : AccelCall) (hc : c.wellFormed)
    (h : sys.hardwareOnIffLatched) :
    (AccelSystem.step P sys c).hardwareOnIffLatched := by
  unfold AccelSystem.hardwareOnIffLatched at h ⊢
  cases c with
  | enable handle en io =>
    have hw : io.ret < 0 → 0 < io.errno := hc
    simp only [AccelSystem.step, AccelerationSensor.enable, hwAfter]
    split_ifs <;> simp_all [ioctlsOf]
  | enableOrientation en io =>
    have hw : io.ret < 0 → 0 < io.errno := hc
    simp only [AccelSystem.step, AccelerationSensor.enableOrientation, hwAfter]
    split_ifs <;> simp_all [ioctlsOf]
  | setDelay ns io =>
    simp only [AccelSystem.step, AccelerationSensor.setDelay]
    split_ifs <;> exact h
  | readEvents count rd =>
    simp only [AccelSystem.step, AccelerationSensor.readEvents]
    split_ifs <;> exact h

/-- Every sequence of calls preserves the hardware-on invariant. -/
theorem AccelSystem.run_hardwareOnIffLatched {F : Type} [Mul F] [IntCast F]
    (P : Platform F) (calls : List AccelCall) :
    ∀ sys : AccelSystem F, (∀ c ∈ calls, c.wellFormed) → sys.hardwareOnIffLatched →
      (AccelSystem.run P sys calls).hardwareOnIffLatched := by
  induction calls with
  | nil => intro sys _ h; exact h
  | cons c cs ih =>
    intro sys hwf h
    have hc : c.wellFormed := hwf c (List.mem_cons_self c cs)
    have hcs : ∀ d ∈ cs, d.wellFormed := fun d hd => hwf d (List.mem_cons_of_mem c hd)
    exact ih (AccelSystem.step P sys c) hcs (AccelSystem.step_hardwareOnIffLatched P sys c hc h)

/-- The enable calls leave the other client's latch alone. -/
theorem AccelerationSensor.enable_other_latch {F : Type} (s : AccelerationSensor F)
    (handle en : Int) (io : IoctlOutcome) :
    (s.enable handle en io).sensor.mOrientationEnabled = s.mOrientationEnabled ∧
    (s.enableOrientation en io).sensor.mEnabled = s.mEnabled := by
  constructor
  · simp only [AccelerationSensor.enable]
    split_ifs <;> rfl
  · simp only [AccelerationSensor.enableOrientation]
    split_ifs <;> rfl

/-- C2: the hardware-on invariant. With the hardware enable flag set to the value reported by a
successful GET_ENABLE at construction and afterwards to the argument of the last successful
SET_ENABLE, after every sequence of calls on the adapter (each failing ioctl setting a positive
errno) the hardware is on exactly when mEnabled or mOrientationEnabled is set; and a disable by
one client whose partner latch is set leaves the hardware on. -/
theorem C2_hardware_on_iff_latched {F : Type} [Mul F] [IntCast F] [Zero F]
    (P : Platform F) (ge : GetEnableOutcome) (ax ay az : AbsOutcome) (calls : List AccelCall)
    (hge : ge.ret = 0) (hwf : ∀ c ∈ calls, c.wellFormed) :
    ((AccelSystem.run P (AccelSystem.init P ge ax ay az) calls).hw ≠ 0 ↔
      ((AccelSystem.run P (AccelSystem.init P ge ax ay az) calls).sensor.mEnabled ≠ 0 ∨
        (AccelSystem.run P (AccelSystem.init P ge ax ay az) calls).sensor.mOrientationEnabled
          ≠ 0)) ∧
    (∀ handle io, io.wellFormed →
      (AccelSystem.run P (AccelSystem.init P ge ax ay az) calls).sensor.mOrientationEnabled ≠ 0 →
      (AccelSystem.step P (AccelSystem.run P (AccelSystem.init P ge ax ay az) calls)
        (AccelCall.enable handle 0 io)).hw ≠ 0) ∧
    (∀ io, io.wellFormed →
      (AccelSystem.run P (AccelSystem.init P ge ax ay az) calls).sensor.mEnabled ≠ 0 →
      (AccelSystem.step P (AccelSystem.run P (AccelSystem.init P ge ax ay az) calls)
        (AccelCall.enableOrientation 0 io)).hw ≠ 0) := by
  have hinv := AccelSystem.run_hardwareOnIffLatched P calls (AccelSystem.init P ge ax ay az) hwf
    (AccelSystem.init_hardwareOnIffLatched P ge ax ay az hge)
  refine ⟨hinv, ?_, ?_⟩
  · intro handle io hio hO
    have hstep := AccelSystem.step_hardwareOnIffLatched P _ (AccelCall.enable handle 0 io) hio hinv
    refine hstep.mpr (Or.inr ?_)
    have hkeep := (AccelerationSensor.enable_other_latch
      (AccelSystem.run P (AccelSystem.init P ge ax ay az) calls).sensor handle 0 io).1
    simpa [AccelSystem.step, hkeep] using hO
  · intro io hio hE
    have hstep := AccelSystem.step_hardwareOnIffLatched P _ (AccelCall.enableOrientation 0 io)
      hio hinv
    refine hstep.mpr (Or.inl ?_)
    have hkeep := (AccelerationSensor.enable_other_latch
      (AccelSystem.run P (AccelSystem.init P ge ax ay az) calls).sensor 0 0 io).2
    simpa [AccelSystem.step, hkeep] using hE

/-- The invariant on a run in which both clients enable, one ioctl fails, and both disable. -/
theorem C2_hardware_on_iff_latched_witness :
    (GetEnableOutcome.mk 0 1).ret = 0 ∧
    (∀ c ∈ [AccelCall.enableOrientation 1 ⟨0, 0⟩, AccelCall.enable 0 0 ⟨0, 0⟩,
        AccelCall.enableOrientation 0 ⟨-1, 5⟩, AccelCall.enableOrientation 0 ⟨0, 0⟩],
      c.wellFormed) ∧
    (AccelSystem.run examplePlatform
      (AccelSystem.init examplePlatform ⟨0, 1⟩ ⟨0, 10⟩ ⟨0, 20⟩ ⟨0, 30⟩)
      [AccelCall.enableOrientation 1 ⟨0, 0⟩, AccelCall.enable 0 0 ⟨0, 0⟩,
        AccelCall.enableOrientation 0 ⟨-1, 5⟩, AccelCall.enableOrientation 0 ⟨0, 0⟩]).hw = 0 :=
  have hwf : ∀ c ∈ [AccelCall.enableOrientation 1 ⟨0, 0⟩, AccelCall.enable 0 0 ⟨0, 0⟩,
      AccelCall.enableOrientation 0 ⟨-1, 5⟩, AccelCall.enableOrientation 0 ⟨0, 0⟩],
      c.wellFormed := by
    simp [AccelCall.wellFormed, IoctlOutcome.wellFormed]
  ⟨rfl, hwf, by
    have h := (C2_hardware_on_iff_latched examplePlatform ⟨0, 1⟩ ⟨0, 10⟩ ⟨0, 20⟩ ⟨0, 30⟩
      [AccelCall.enableOrientation 1 ⟨0, 0⟩, AccelCall.enable 0 0 ⟨0, 0⟩,
        AccelCall.enableOrientation 0 ⟨-1, 5⟩, AccelCall.enableOrientation 0 ⟨0, 0⟩] rfl hwf).1
    by_contra hne
    have hlatch := h.mp hne
    revert hlatch
    decide⟩

/-! ## Error handling of the control calls -/

/-- C3: atomicity of a failed enable. Whenever enable or enableOrientation issues the SET_ENABLE
ioctl: if the ioctl fails with error number e (positive, as POSIX requires), the call returns
-e, a negative value, and both latches keep their values; if the ioctl succeeds, the call
returns 0, the calling client's latch becomes the requested value and the other latch keeps its
value. -/
theorem C3_failed_enable_atomic {F : Type} (s : AccelerationSensor F) (handle d : Int)
    (io : IoctlOutcome) (hwf : io.wellFormed) :
    (ioctlsOf (s.enable handle d io).effects ≠ [] →
      (io.ret < 0 →
        (s.enable handle d io).ret = -io.errno ∧
        (s.enable handle d io).ret < 0 ∧
        (s.enable handle d io).sensor.mEnabled = s.mEnabled ∧
        (s.enable handle d io).sensor.mOrientationEnabled = s.mOrientationEnabled) ∧
      (0 ≤ io.ret →
        (s.enable handle d io).ret = 0 ∧
        (s.enable handle d io).sensor.mEnabled = (if d ≠ 0 then 1 else 0) ∧
        (s.enable handle d io).sensor.mOrientationEnabled = s.mOrientationEnabled)) ∧
    (ioctlsOf (s.enableOrientation d io).effects ≠ [] →
      (io.ret < 0 →
        (s.enableOrientation d io).ret = -io.errno ∧
        (s.enableOrientation d io).ret < 0 ∧
        (s.enableOrientation d io).sensor.mEnabled = s.mEnabled ∧
        (s.enableOrientation d io).sensor.mOrientationEnabled = s.mOrientationEnabled) ∧
      (0 ≤ io.ret →
        (s.enableOrientation d io).ret = 0 ∧
        (s.enableOrientation d io).sensor.mOrientationEnabled = (if d ≠ 0 then 1 else 0) ∧
        (s.enableOrientation d io).sensor.mEnabled = s.mEnabled)) := by
  have hw : io.ret < 0 → 0 < io.errno := hwf
  constructor
  · intro hissued
    constructor
    · intro hfail
      have hpos := hw hfail
      have hne : ¬ io.errno = 0 := by omega
      revert hissued
      simp only [AccelerationSensor.enable]
      split_ifs <;> simp_all [ioctlsOf]
    · intro hok
      have hnot : ¬ io.ret < 0 := not_lt.mpr hok
      revert hissued
      simp only [AccelerationSensor.enable]
      split_ifs <;> simp_all [ioctlsOf]
  · intro hissued
    constructor
    · intro hfail
      have hpos := hw hfail
      have hne : ¬ io.errno = 0 := by omega
      revert hissued
      simp only [AccelerationSensor.enableOrientation]
      split_ifs <;> simp_all [ioctlsOf]
    · intro hok
      have hnot : ¬ io.ret < 0 := not_lt.mpr hok
      revert hissued
      simp only [AccelerationSensor.enableOrientation]
      split_ifs <;> simp_all [ioctlsOf]

/-- A failing first enable (errno 5) on the freshly constructed adapter. -/
theorem C3_failed_enable_atomic_witness :
    (IoctlOutcome.mk (-1) 5).wellFormed ∧
    ioctlsOf (exampleAccel.enable 0 1 ⟨-1, 5⟩).effects ≠ [] ∧
    (exampleAccel.enable 0 1 ⟨-1, 5⟩).ret = -5 ∧
    (exampleAccel.enable 0 1 ⟨-1, 5⟩).sensor.mEnabled = 0 :=
  ⟨by decide, by decide,
    (((C3_failed_enable_atomic exampleAccel 0 1 ⟨-1, 5⟩ (by decide)).1 (by decide)).1
      (by decide)).1,
    (((C3_failed_enable_atomic exampleAccel 0 1 ⟨-1, 5⟩ (by decide)).1 (by decide)).1
      (by decide)).2.2.1⟩

/-- C4 (as the code behaves): setDelay returns 0 when the SET_DELAY ioctl fails, and the negated
errno left over from earlier calls when the ioctl succeeds; the test of the ioctl result is
inverted. -/
theorem C4_setDelay_return_inverted :
    (exampleAccel.setDelay 5000000 ⟨-1, 22⟩).ret = 0 ∧
    (exampleAccel.setDelay 5000000 ⟨0, 25⟩).ret = -25 ∧
    ioctlsOf (exampleAccel.setDelay 5000000 ⟨-1, 22⟩).effects
      = [IoctlCall.KXTF9_IOCTL_SET_DELAY 5] := by
  decide

/-- C5: invalid arguments are rejected with no side effect. readEvents of either adapter with
count below 1 and setDelay with a negative delay return -EINVAL, leave the adapter state (latches,
pending sample, reader, synthetic flag) unchanged, write no output slot and have no effect: no
ioctl, no fill, no log line. -/
theorem C5_invalid_arguments_rejected {F : Type} [Mul F] [IntCast F] [NatCast F]
    (P : Platform F) (a : AccelerationSensor F) (l : LightSensor F) (count ns now : Int)
    (rd : ReadOutcome) (io : IoctlOutcome) :
    (count < 1 →
      AccelerationSensor.readEvents P a count rd
        = { ret := -EINVAL, sensor := a, data := [], effects := [] }) ∧
    (count < 1 →
      LightSensor.readEvents P l count now rd
        = { ret := -EINVAL, sensor := l, data := [], effects := [] }) ∧
    (ns < 0 → a.setDelay ns io = { ret := -EINVAL, sensor := a, effects := [] }) := by
  refine ⟨?_, ?_, ?_⟩
  · intro h
    simp [AccelerationSensor.readEvents, h]
  · intro h
    simp [LightSensor.readEvents, h]
  · intro h
    simp [AccelerationSensor.setDelay, h]

/-- The calls readEvents(buf, 0) and setDelay(-1). -/
theorem C5_invalid_arguments_rejected_witness :
    (0 : Int) < 1 ∧ (-1 : Int) < 0 ∧
    (AccelerationSensor.readEvents examplePlatform exampleAccel 0
      (ReadOutcome.records [synRecord 1 1])).ret = -22 ∧
    (LightSensor.readEvents examplePlatform exampleLight 0 7
      (ReadOutcome.records [synRecord 1 1])).sensor = exampleLight ∧
    (exampleAccel.setDelay (-1) ⟨0, 0⟩).effects = [] :=
  ⟨by decide, by decide,
    by rw [(C5_invalid_arguments_rejected examplePlatform exampleAccel exampleLight 0 (-1) 7
        (ReadOutcome.records [synRecord 1 1]) ⟨0, 0⟩).1 (by decide)]; rfl,
    by rw [(C5_invalid_arguments_rejected examplePlatform exampleAccel exampleLight 0 (-1) 7
        (ReadOutcome.records [synRecord 1 1]) ⟨0, 0⟩).2.1 (by decide)],
    by rw [(C5_invalid_arguments_rejected examplePlatform exampleAccel exampleLight 0 (-1) 7
        (ReadOutcome.records [synRecord 1 1]) ⟨0, 0⟩).2.2 (by decide)]⟩

/-! ## The decode loop -/

section LoopLemmas

variable {F : Type}

theorem syncRecords_cons (ev : input_event) (buf : List input_event) :
    syncRecords (ev :: buf)
      = if ev.type = EV_SYN then ev :: syncRecords buf else syncRecords buf := by
  unfold syncRecords
  by_cases h : ev.type = EV_SYN <;> simp [List.filter_cons, h]

theorem syncRecords_append (a b : List input_event) :
    syncRecords (a ++ b) = syncRecords a ++ syncRecords b := by
  unfold syncRecords
  exact List.filter_append a b

theorem syncRecords_eq_nil (buf : List input_event) (h : ∀ e ∈ buf, e.type ≠ EV_SYN) :
    syncRecords buf = [] := by
  unfold syncRecords
  rw [List.filter_eq_nil_iff]
  intro e he
  simpa using h e he

/-- The loop in terms of the reader: it stops when `readEvent` yields nothing or `count` is 0,
and otherwise runs the body on the record yielded and goes on after `next`. -/
theorem readLoop_reader (body : LoopState F → input_event → LoopState F)
    (r : InputEventCircularReader) (st : LoopState F) :
    readLoop body r.mBuffer st
      = match r.readEvent with
        | none => (st, [])
        | some event =>
          if st.count = 0 then (st, r.mBuffer)
          else readLoop body r.next.mBuffer (body st event) := by
  cases r with
  | mk n buf =>
    cases buf with
    | nil => rfl
    | cons ev rest => rfl

/-- The accelerometer loop body is a decode body. -/
theorem accel_readBody_decodeBody [Mul F] [IntCast F] (P : Platform F) (en : Int) :
    DecodeBody en (AccelerationSensor.pendingAfter P) (AccelerationSensor.readBody P en) := by
  have h03 : ¬ ((0 : Nat) = 3) := by decide
  constructor
  · intro st ev
    simp only [AccelerationSensor.readBody, AccelerationSensor.pendingAfter]
    split_ifs <;> rfl
  · intro pe ev hev
    simp [AccelerationSensor.pendingAfter, hev, EV_SYN, EV_ABS]
  · intro st ev
    simp only [AccelerationSensor.readBody, EV_SYN, EV_ABS]
    split_ifs <;> simp_all
  · intro st ev
    simp only [AccelerationSensor.readBody, EV_SYN, EV_ABS]
    split_ifs <;> simp_all
  · intro st ev
    simp only [AccelerationSensor.readBody, AccelerationSensor.pendingAfter, EV_SYN, EV_ABS]
    split_ifs <;> simp_all

/-- The light loop body is a decode body. -/
theorem light_readBody_decodeBody [NatCast F] (P : Platform F) (en : Int) :
    DecodeBody en (LightSensor.pendingAfter P) (LightSensor.readBody P en) := by
  constructor
  · intro st ev
    simp only [LightSensor.readBody, LightSensor.pendingAfter]
    split_ifs <;> rfl
  · intro pe ev hev
    simp [LightSensor.pendingAfter, hev, EV_SYN, EV_LED]
  · intro st ev
    simp only [LightSensor.readBody, EV_SYN, EV_LED]
    split_ifs <;> simp_all
  · intro st ev
    simp only [LightSensor.readBody, EV_SYN, EV_LED]
    split_ifs <;> simp_all
  · intro st ev
    simp only [LightSensor.readBody, LightSensor.pendingAfter, EV_SYN, EV_LED]
    split_ifs <;> simp_all

variable {en : Int} {upd : sensors_event_t F → input_event → sensors_event_t F}
  {body : LoopState F → input_event → LoopState F}

/-- With the latch set, the loop adds `min count k` to `numEventReceived`, where `k` is the
number of SYNC records buffered. -/
theorem readLoop_num_enabled (hb : DecodeBody en upd body) (hen : en ≠ 0)
    (buf : List input_event) :
    ∀ st : LoopState F, 0 ≤ st.count →
      (readLoop body buf st).1.numEventReceived
        = st.numEventReceived + min st.count ((syncRecords buf).length : Int) := by
  induction buf with
  | nil => intro st h; simp [readLoop, syncRecords]; omega
  | cons ev rest ih =>
    intro st h
    rw [readLoop]
    by_cases hc : st.count = 0
    · simp [hc]
    · rw [if_neg hc, syncRecords_cons]
      have hcnt := hb.count_eq st ev
      have hnum := hb.num_eq st ev
      by_cases hs : ev.type = EV_SYN
      · rw [if_pos ⟨hs, hen⟩] at hcnt hnum
        rw [ih (body st ev) (by omega), hcnt, hnum, if_pos hs, List.length_cons]
        push_cast
        omega
      · rw [if_neg (fun hh => hs hh.1)] at hcnt hnum
        rw [ih (body st ev) (by omega), hcnt, hnum, if_neg hs]

/-- The number of output slots written by the loop equals the increase of
`numEventReceived`. -/
theorem readLoop_data_length (hb : DecodeBody en upd body) (buf : List input_event) :
    ∀ st : LoopState F,
      ((readLoop body buf st).1.data.length : Int) - (readLoop body buf st).1.numEventReceived
        = (st.data.length : Int) - st.numEventReceived := by
  induction buf with
  | nil => intro st; simp [readLoop]
  | cons ev rest ih =>
    intro st
    rw [readLoop]
    by_cases hc : st.count = 0
    · simp [hc]
    · rw [if_neg hc, ih (body st ev), hb.num_eq st ev, hb.data_eq st ev]
      by_cases hs : ev.type = EV_SYN ∧ en ≠ 0
      · rw [if_pos hs, if_pos hs, List.length_append]
        simp
      · rw [if_neg hs, if_neg hs]

/-- A loop that meets no emitting record neither counts nor writes an event. -/
theorem readLoop_no_emit (hb : DecodeBody en upd body) (buf : List input_event)
    (hno : en = 0 ∨ ∀ e ∈ buf, e.type ≠ EV_SYN) :
    ∀ st : LoopState F,
      (readLoop body buf st).1.numEventReceived = st.numEventReceived ∧
      (readLoop body buf st).1.data = st.data ∧
      (readLoop body buf st).1.count = st.count := by
  induction buf with
  | nil => intro st; simp [readLoop]
  | cons ev rest ih =>
    intro st
    have hno2 : en = 0 ∨ ∀ e ∈ rest, e.type ≠ EV_SYN := by
      rcases hno with h | h
      · exact Or.inl h
      · exact Or.inr (fun e he => h e (List.mem_cons_of_mem ev he))
    have hev : ¬ (ev.type = EV_SYN ∧ en ≠ 0) := by
      rcases hno with h | h
      · exact fun hh => hh.2 h
      · exact fun hh => h ev (List.mem_cons_self ev rest) hh.1
    rw [readLoop]
    by_cases hc : st.count = 0
    · simp [hc]
    · rw [if_neg hc]
      obtain ⟨h1, h2, h3⟩ := ih hno2 (body st ev)
      rw [h1, h2, h3, hb.num_eq, hb.data_eq, hb.count_eq, if_neg hev, if_neg hev, if_neg hev]
      exact ⟨rfl, rfl, rfl⟩

/-- While capacity lasts the loop is a fold of the body: a prefix holding fewer SYNC records
than `count` (or any prefix, when the latch is clear) is processed entirely. -/
theorem readLoop_append (hb : DecodeBody en upd body) (pre rest : List input_event) :
    ∀ st : LoopState F, st.count ≠ 0 →
      (en ≠ 0 → ((syncRecords pre).length : Int) < st.count) →
      readLoop body (pre ++ rest) st = readLoop body rest (pre.foldl body st) := by
  induction pre with
  | nil => intro st _ _; rfl
  | cons ev pre ih =>
    intro st hc hk
    rw [List.cons_append, readLoop, if_neg hc, List.foldl_cons]
    have hcnt := hb.count_eq st ev
    rw [syncRecords_cons] at hk
    apply ih
    · by_cases hs : ev.type = EV_SYN ∧ en ≠ 0
      · rw [if_pos hs] at hcnt
        have := hk hs.2
        rw [if_pos hs.1, List.length_cons] at this
        push_cast at this
        omega
      · rw [if_neg hs] at hcnt
        omega
    · intro hen
      have := hk hen
      by_cases hs : ev.type = EV_SYN
      · rw [if_pos ⟨hs, hen⟩] at hcnt
        rw [if_pos hs, List.length_cons] at this
        push_cast at this
        omega
      · rw [if_neg (fun hh => hs hh.1)] at hcnt
        rw [if_neg hs] at this
        omega

/-- The loop consumes a prefix of the buffered records, leaves the rest in order, and its
final state is the fold of the body over the consumed prefix. -/
theorem readLoop_consumed (body : LoopState F → input_event → LoopState F)
    (buf : List input_event) :
    ∀ st : LoopState F, ∃ c : List input_event,
      buf = c ++ (readLoop body buf st).2 ∧ (readLoop body buf st).1 = c.foldl body st := by
  induction buf with
  | nil => intro st; exact ⟨[], rfl, rfl⟩
  | cons ev rest ih =>
    intro st
    rw [readLoop]
    by_cases hc : st.count = 0
    · rw [if_pos hc]
      exact ⟨[], rfl, rfl⟩
    · rw [if_neg hc]
      obtain ⟨c, h1, h2⟩ := ih (body st ev)
      exact ⟨ev :: c, by rw [List.cons_append, ← h1], by rw [List.foldl_cons, h2]⟩

/-- The pending sample after a fold of the body is the fold of the pending update. -/
theorem foldl_body_pending (hb : DecodeBody en upd body) (recs : List input_event) :
    ∀ st : LoopState F, (recs.foldl body st).mPendingEvent = recs.foldl upd st.mPendingEvent := by
  induction recs with
  | nil => intro st; rfl
  | cons ev rest ih =>
    intro st
    rw [List.foldl_cons, List.foldl_cons, ih, hb.pending_eq]

/-- With the latch set, a fold of the body over `recs` writes one slot per SYNC record. -/
theorem foldl_body_data_length (hb : DecodeBody en upd body) (hen : en ≠ 0)
    (recs : List input_event) :
    ∀ st : LoopState F,
      (recs.foldl body st).data.length = st.data.length + (syncRecords recs).length ∧
      (recs.foldl body st).count = st.count - ((syncRecords recs).length : Int) := by
  induction recs with
  | nil => intro st; simp [syncRecords]
  | cons ev rest ih =>
    intro st
    rw [List.foldl_cons, (ih (body st ev)).1, (ih (body st ev)).2, hb.data_eq, hb.count_eq,
      syncRecords_cons]
    by_cases hs : ev.type = EV_SYN
    · have hboth : ev.type = EV_SYN ∧ en ≠ 0 := ⟨hs, hen⟩
      simp only [if_pos hboth, if_pos hs, List.length_append, List.length_cons, List.length_nil]
      push_cast
      constructor <;> omega
    · have hboth : ¬ (ev.type = EV_SYN ∧ en ≠ 0) := fun hh => hs hh.1
      simp only [if_neg hboth, if_neg hs, and_self]

/-- The slots already written are never rewritten by the loop. -/
theorem readLoop_data_prefix (hb : DecodeBody en upd body) (buf : List input_event) :
    ∀ st : LoopState F, ∃ more, (readLoop body buf st).1.data = st.data ++ more := by
  induction buf with
  | nil => intro st; exact ⟨[], by simp [readLoop]⟩
  | cons ev rest ih =>
    intro st
    rw [readLoop]
    by_cases hc : st.count = 0
    · rw [if_pos hc]
      exact ⟨[], by simp⟩
    · rw [if_neg hc]
      obtain ⟨more, hm⟩ := ih (body st ev)
      rw [hm, hb.data_eq]
      by_cases hs : ev.type = EV_SYN ∧ en ≠ 0
      · rw [if_pos hs]
        exact ⟨[upd st.mPendingEvent ev] ++ more, by simp⟩
      · rw [if_neg hs]
        exact ⟨more, rfl⟩

/-- With the latch set, the timestamps written by the loop are the kernel times of the first
`count` SYNC records, in order. -/
theorem readLoop_timestamps (hb : DecodeBody en upd body) (hen : en ≠ 0)
    (buf : List input_event) :
    ∀ st : LoopState F, 0 ≤ st.count →
      (readLoop body buf st).1.data.map (fun e => e.timestamp)
        = st.data.map (fun e => e.timestamp)
          ++ ((syncRecords buf).take st.count.toNat).map (fun e => timevalToNano e.time) := by
  induction buf with
  | nil => intro st _; simp [readLoop, syncRecords]
  | cons ev rest ih =>
    intro st h
    rw [readLoop]
    by_cases hc : st.count = 0
    · simp [hc]
    · rw [if_neg hc, syncRecords_cons]
      have hcnt := hb.count_eq st ev
      by_cases hs : ev.type = EV_SYN
      · rw [if_pos ⟨hs, hen⟩] at hcnt
        rw [ih (body st ev) (by omega), hb.data_eq, if_pos ⟨hs, hen⟩, hcnt, if_pos hs,
          hb.upd_sync _ _ hs]
        obtain ⟨n, hn⟩ : ∃ n : Nat, st.count = (n : Int) + 1 :=
          ⟨(st.count - 1).toNat, by omega⟩
        rw [hn]
        have h1 : ((n : Int) + 1).toNat = n + 1 := by omega
        have h2 : ((n : Int) + 1 - 1).toNat = n := by omega
        rw [h1, h2]
        simp
      · rw [if_neg (fun hh => hs hh.1)] at hcnt
        rw [ih (body st ev) (by omega), hb.data_eq, if_neg (fun hh => hs hh.1), hcnt, if_neg hs]

end LoopLemmas

/-! ## `readEvents` on the decode path -/

/-- The accelerometer `readEvents` with a valid count and a read that delivers records: the
decode loop runs on the records buffered after the fill. -/
theorem accel_readEvents_records {F : Type} [Mul F] [IntCast F] (P : Platform F)
    (s : AccelerationSensor F) (count : Int) (rs : List input_event) (hcount : 1 ≤ count) :
    AccelerationSensor.readEvents P s count (ReadOutcome.records rs)
      = { ret := (readLoop (AccelerationSensor.readBody P s.mEnabled)
            (s.mInputReader.fill (ReadOutcome.records rs)).1.mBuffer
            ⟨count, 0, [], s.mPendingEvent, [Effect.fill]⟩).1.numEventReceived
          sensor :=
            { s with
              mPendingEvent := (readLoop (AccelerationSensor.readBody P s.mEnabled)
                (s.mInputReader.fill (ReadOutcome.records rs)).1.mBuffer
                ⟨count, 0, [], s.mPendingEvent, [Effect.fill]⟩).1.mPendingEvent
              mInputReader :=
                { (s.mInputReader.fill (ReadOutcome.records rs)).1 with
                  mBuffer := (readLoop (AccelerationSensor.readBody P s.mEnabled)
                    (s.mInputReader.fill (ReadOutcome.records rs)).1.mBuffer
                    ⟨count, 0, [], s.mPendingEvent, [Effect.fill]⟩).2 } }
          data := (readLoop (AccelerationSensor.readBody P s.mEnabled)
            (s.mInputReader.fill (ReadOutcome.records rs)).1.mBuffer
            ⟨count, 0, [], s.mPendingEvent, [Effect.fill]⟩).1.data
          effects := (readLoop (AccelerationSensor.readBody P s.mEnabled)
            (s.mInputReader.fill (ReadOutcome.records rs)).1.mBuffer
            ⟨count, 0, [], s.mPendingEvent, [Effect.fill]⟩).1.effects } := by
  have h1 : ¬ count < 1 := not_lt.mpr hcount
  have h2 : ¬ (s.mInputReader.fill (ReadOutcome.records rs)).2 < 0 := by
    simp only [InputEventCircularReader.fill]
    omega
  simp only [AccelerationSensor.readEvents, if_neg h1, if_neg h2]

/-- The light `readEvents` with a valid count, no synthetic emission pending and a read that
delivers records: the decode loop runs on the records buffered after the fill. -/
theorem light_readEvents_records {F : Type} [NatCast F] (P : Platform F)
    (s : LightSensor F) (count now : Int) (rs : List input_event) (hcount : 1 ≤ count)
    (hpend : s.mHasPendingEvent = false) :
    LightSensor.readEvents P s count now (ReadOutcome.records rs)
      = { ret := (readLoop (LightSensor.readBody P s.mEnabled)
            (s.mInputReader.fill (ReadOutcome.records rs)).1.mBuffer
            ⟨count, 0, [], s.mPendingEvent, [Effect.fill]⟩).1.numEventReceived
          sensor :=
            { s with
              mPendingEvent := (readLoop (LightSensor.readBody P s.mEnabled)
                (s.mInputReader.fill (ReadOutcome.records rs)).1.mBuffer
                ⟨count, 0, [], s.mPendingEvent, [Effect.fill]⟩).1.mPendingEvent
              mInputReader :=
                { (s.mInputReader.fill (ReadOutcome.records rs)).1 with
                  mBuffer := (readLoop (LightSensor.readBody P s.mEnabled)
                    (s.mInputReader.fill (ReadOutcome.records rs)).1.mBuffer
                    ⟨count, 0, [], s.mPendingEvent, [Effect.fill]⟩).2 } }
          data := (readLoop (LightSensor.readBody P s.mEnabled)
            (s.mInputReader.fill (ReadOutcome.records rs)).1.mBuffer
            ⟨count, 0, [], s.mPendingEvent, [Effect.fill]⟩).1.data
          effects := (readLoop (LightSensor.readBody P s.mEnabled)
            (s.mInputReader.fill (ReadOutcome.records rs)).1.mBuffer
            ⟨count, 0, [], s.mPendingEvent, [Effect.fill]⟩).1.effects } := by
  have h1 : ¬ count < 1 := not_lt.mpr hcount
  have h2 : ¬ (s.mInputReader.fill (ReadOutcome.records rs)).2 < 0 := by
    simp only [InputEventCircularReader.fill]
    omega
  simp [LightSensor.readEvents, if_neg h1, if_neg h2, hpend]

/-- C6 (as stated, for the light adapter): with a synthetic emission pending and the latch set,
readEvents returns 1 although no record at all, hence no SYNC record, is delivered. -/
theorem C6_counterexample_light_synthetic :
    (∀ e ∈ ((exampleLight.enable 0 1).sensor.mInputReader.fill (ReadOutcome.records [])).1.mBuffer,
      e.type ≠ EV_SYN) ∧
    (LightSensor.readEvents examplePlatform (exampleLight.enable 0 1).sensor 1 0
      (ReadOutcome.records [])).ret = 1 ∧
    (LightSensor.readEvents examplePlatform (exampleLight.enable 0 1).sensor 1 0
      (ReadOutcome.records [])).data.length = 1 := by
  decide

/-- C6 (amended): frame atomicity. For the accelerometer in every state, and for the light
adapter in every state with no synthetic emission pending, for every count of at least 1: when
the records delivered to readEvents (those buffered after the fill) contain no SYNC record,
readEvents returns 0 and writes no output slot. -/
theorem C6_no_sync_no_event {F : Type} [Mul F] [IntCast F] [NatCast F] (P : Platform F)
    (a : AccelerationSensor F) (l : LightSensor F) (count now : Int) (rs : List input_event)
    (hcount : 1 ≤ count) :
    ((∀ e ∈ (a.mInputReader.fill (ReadOutcome.records rs)).1.mBuffer, e.type ≠ EV_SYN) →
      (AccelerationSensor.readEvents P a count (ReadOutcome.records rs)).ret = 0 ∧
      (AccelerationSensor.readEvents P a count (ReadOutcome.records rs)).data = []) ∧
    (l.mHasPendingEvent = false →
      (∀ e ∈ (l.mInputReader.fill (ReadOutcome.records rs)).1.mBuffer, e.type ≠ EV_SYN) →
      (LightSensor.readEvents P l count now (ReadOutcome.records rs)).ret = 0 ∧
      (LightSensor.readEvents P l count now (ReadOutcome.records rs)).data = []) := by
  constructor
  · intro hno
    rw [accel_readEvents_records P a count rs hcount]
    have h := readLoop_no_emit (accel_readBody_decodeBody P a.mEnabled) _
      (Or.inr hno) ⟨count, 0, [], a.mPendingEvent, [Effect.fill]⟩
    exact ⟨h.1, h.2.1⟩
  · intro hpend hno
    rw [light_readEvents_records P l count now rs hcount hpend]
    have h := readLoop_no_emit (light_readBody_decodeBody P l.mEnabled) _
      (Or.inr hno) ⟨count, 0, [], l.mPendingEvent, [Effect.fill]⟩
    exact ⟨h.1, h.2.1⟩

/-- Three ABS records and no SYNC on the enabled accelerometer. -/
theorem C6_no_sync_no_event_witness :
    (1 : Int) ≤ 4 ∧
    (∀ e ∈ ((exampleAccel.enable 0 1 ⟨0, 0⟩).sensor.mInputReader.fill
        (ReadOutcome.records [absRecord 0 1000, absRecord 1 2000, absRecord 2 3000])).1.mBuffer,
      e.type ≠ EV_SYN) ∧
    (AccelerationSensor.readEvents examplePlatform (exampleAccel.enable 0 1 ⟨0, 0⟩).sensor 4
      (ReadOutcome.records [absRecord 0 1000, absRecord 1 2000, absRecord 2 3000])).ret = 0 :=
  ⟨by decide, by decide,
    ((C6_no_sync_no_event examplePlatform (exampleAccel.enable 0 1 ⟨0, 0⟩).sensor exampleLight 4 0
      [absRecord 0 1000, absRecord 1 2000, absRecord 2 3000] (by decide)).1 (by decide)).1⟩

/-- C7: emission count on the decode path. For the accelerometer with mEnabled set, and for the
light adapter with mEnabled set and no synthetic emission pending, for every count of at least 1
and buffered records holding exactly k SYNC records, readEvents returns min(count, k), which is
also the number of output slots written; so it emits at most one event per SYNC and at most
count events. -/
theorem C7_emission_count {F : Type} [Mul F] [IntCast F] [NatCast F] (P : Platform F)
    (a : AccelerationSensor F) (l : LightSensor F) (count now : Int) (rs : List input_event)
    (hcount : 1 ≤ count) :
    (a.mEnabled ≠ 0 →
      (AccelerationSensor.readEvents P a count (ReadOutcome.records rs)).ret
        = min count
          ((syncRecords (a.mInputReader.fill (ReadOutcome.records rs)).1.mBuffer).length : Int) ∧
      ((AccelerationSensor.readEvents P a count (ReadOutcome.records rs)).data.length : Int)
        = (AccelerationSensor.readEvents P a count (ReadOutcome.records rs)).ret ∧
      (AccelerationSensor.readEvents P a count (ReadOutcome.records rs)).ret
        ≤ ((syncRecords (a.mInputReader.fill (ReadOutcome.records rs)).1.mBuffer).length : Int) ∧
      (AccelerationSensor.readEvents P a count (ReadOutcome.records rs)).ret ≤ count) ∧
    (l.mEnabled ≠ 0 → l.mHasPendingEvent = false →
      (LightSensor.readEvents P l count now (ReadOutcome.records rs)).ret
        = min count
          ((syncRecords (l.mInputReader.fill (ReadOutcome.records rs)).1.mBuffer).length : Int) ∧
      ((LightSensor.readEvents P l count now (ReadOutcome.records rs)).data.length : Int)
        = (LightSensor.readEvents P l count now (ReadOutcome.records rs)).ret ∧
      (LightSensor.readEvents P l count now (ReadOutcome.records rs)).ret
        ≤ ((syncRecords (l.mInputReader.fill (ReadOutcome.records rs)).1.mBuffer).length : Int) ∧
      (LightSensor.readEvents P l count now (ReadOutcome.records rs)).ret ≤ count) := by
  constructor
  · intro hen
    rw [accel_readEvents_records P a count rs hcount]
    have hb := accel_readBody_decodeBody P a.mEnabled
    have hnum := readLoop_num_enabled hb hen
      (a.mInputReader.fill (ReadOutcome.records rs)).1.mBuffer
      ⟨count, 0, [], a.mPendingEvent, [Effect.fill]⟩ (by show (0 : Int) ≤ count; omega)
    have hlen := readLoop_data_length hb
      (a.mInputReader.fill (ReadOutcome.records rs)).1.mBuffer
      ⟨count, 0, [], a.mPendingEvent, [Effect.fill]⟩
    simp only [List.length_nil, Nat.cast_zero, sub_self, zero_add] at hnum hlen
    dsimp only
    refine ⟨hnum, by omega, by omega, by omega⟩
  · intro hen hpend
    rw [light_readEvents_records P l count now rs hcount hpend]
    have hb := light_readBody_decodeBody P l.mEnabled
    have hnum := readLoop_num_enabled hb hen
      (l.mInputReader.fill (ReadOutcome.records rs)).1.mBuffer
      ⟨count, 0, [], l.mPendingEvent, [Effect.fill]⟩ (by show (0 : Int) ≤ count; omega)
    have hlen := readLoop_data_length hb
      (l.mInputReader.fill (ReadOutcome.records rs)).1.mBuffer
      ⟨count, 0, [], l.mPendingEvent, [Effect.fill]⟩
    simp only [List.length_nil, Nat.cast_zero, sub_self, zero_add] at hnum hlen
    dsimp only
    refine ⟨hnum, by omega, by omega, by omega⟩

/-- Three SYNC records and capacity 2 on the enabled accelerometer: two events. -/
theorem C7_emission_count_witness :
    (1 : Int) ≤ 2 ∧ (exampleAccel.enable 0 1 ⟨0, 0⟩).sensor.mEnabled ≠ 0 ∧
    (AccelerationSensor.readEvents examplePlatform (exampleAccel.enable 0 1 ⟨0, 0⟩).sensor 2
      (ReadOutcome.records [synRecord 1 0, absRecord 0 7, synRecord 2 0, synRecord 3 0])).ret
      = min 2 ((syncRecords ((exampleAccel.enable 0 1 ⟨0, 0⟩).sensor.mInputReader.fill
          (ReadOutcome.records
            [synRecord 1 0, absRecord 0 7, synRecord 2 0, synRecord 3 0])).1.mBuffer).length
          : Int) :=
  ⟨by decide, by decide,
    ((C7_emission_count examplePlatform (exampleAccel.enable 0 1 ⟨0, 0⟩).sensor exampleLight 2 0
      [synRecord 1 0, absRecord 0 7, synRecord 2 0, synRecord 3 0] (by decide)).1
      (by decide)).1⟩

/-- When capacity never runs out the loop processes every buffered record. -/
theorem readLoop_all {F : Type} {en : Int}
    {upd : sensors_event_t F → input_event → sensors_event_t F}
    {body : LoopState F → input_event → LoopState F} (hb : DecodeBody en upd body)
    (buf : List input_event) (st : LoopState F) (hc : st.count ≠ 0)
    (hk : en ≠ 0 → ((syncRecords buf).length : Int) < st.count) :
    readLoop body buf st = (buf.foldl body st, []) := by
  have h := readLoop_append hb buf [] st hc hk
  rw [List.append_nil] at h
  rw [h]
  rfl

/-- The accelerometer `readEvents` with the latch clear: all buffered records are consumed, the
pending sample is the fold of the pending update, nothing is emitted. -/
theorem AccelerationSensor.readEvents_disabled {F : Type} [Mul F] [IntCast F] (P : Platform F)
    (a : AccelerationSensor F) (count : Int) (rs : List input_event) (hcount : 1 ≤ count)
    (hdis : a.mEnabled = 0) :
    (AccelerationSensor.readEvents P a count (ReadOutcome.records rs)).ret = 0 ∧
    (AccelerationSensor.readEvents P a count (ReadOutcome.records rs)).data = [] ∧
    (AccelerationSensor.readEvents P a count (ReadOutcome.records rs)).sensor
      = { a with
          mPendingEvent := (a.mInputReader.fill (ReadOutcome.records rs)).1.mBuffer.foldl
            (AccelerationSensor.pendingAfter P) a.mPendingEvent
          mInputReader := { numEvents := a.mInputReader.numEvents, mBuffer := [] } } := by
  have hb := accel_readBody_decodeBody P a.mEnabled
  have hall := readLoop_all hb (a.mInputReader.fill (ReadOutcome.records rs)).1.mBuffer
    ⟨count, 0, [], a.mPendingEvent, [Effect.fill]⟩ (by show count ≠ 0; omega)
    (fun h => absurd hdis h)
  have hno := readLoop_no_emit hb (a.mInputReader.fill (ReadOutcome.records rs)).1.mBuffer
    (Or.inl hdis) ⟨count, 0, [], a.mPendingEvent, [Effect.fill]⟩
  rw [accel_readEvents_records P a count rs hcount]
  refine ⟨hno.1, hno.2.1, ?_⟩
  rw [hall]
  dsimp only
  rw [foldl_body_pending hb]
  rfl

/-- C8: suppression when disabled. With mEnabled = 0 (whatever mOrientationEnabled is),
readEvents of either adapter with count of at least 1 returns 0 for every sequence of input
records. The accelerometer still updates its pending sample: after the call it is the sample the
same records produce with mEnabled = 1 and a capacity larger than the number of SYNC records;
and a later successful enable followed by a SYNC emits exactly that sample, stamped with the
SYNC time. -/
theorem C8_suppressed_when_disabled {F : Type} [Mul F] [IntCast F] [NatCast F] (P : Platform F)
    (a : AccelerationSensor F) (l : LightSensor F) (count now : Int) (rs : List input_event)
    (hcount : 1 ≤ count) :
    (a.mEnabled = 0 →
      (AccelerationSensor.readEvents P a count (ReadOutcome.records rs)).ret = 0 ∧
      (AccelerationSensor.readEvents P a count (ReadOutcome.records rs)).data = []) ∧
    (l.mEnabled = 0 →
      (LightSensor.readEvents P l count now (ReadOutcome.records rs)).ret = 0) ∧
    (a.mEnabled = 0 → ∀ capacity : Int,
      ((syncRecords (a.mInputReader.fill (ReadOutcome.records rs)).1.mBuffer).length : Int)
        < capacity →
      (AccelerationSensor.readEvents P a count (ReadOutcome.records rs)).sensor.mPendingEvent
        = (AccelerationSensor.readEvents P { a with mEnabled := 1 } capacity
            (ReadOutcome.records rs)).sensor.mPendingEvent) ∧
    (a.mEnabled = 0 → 0 < a.mInputReader.numEvents →
      ∀ (handle en count2 : Int) (io : IoctlOutcome) (sync : input_event),
        en ≠ 0 → 0 ≤ io.ret → 1 ≤ count2 → sync.type = EV_SYN →
        (AccelerationSensor.readEvents P
          ((AccelerationSensor.readEvents P a count (ReadOutcome.records rs)).sensor.enable
            handle en io).sensor
          count2 (ReadOutcome.records [sync])).data
          = [{ (AccelerationSensor.readEvents P a count
                (ReadOutcome.records rs)).sensor.mPendingEvent with
              timestamp := timevalToNano sync.time }]) := by
  refine ⟨?_, ?_, ?_, ?_⟩
  · intro hdis
    have h := AccelerationSensor.readEvents_disabled P a count rs hcount hdis
    exact ⟨h.1, h.2.1⟩
  · intro hdis
    by_cases hpend : l.mHasPendingEvent = true
    · have h1 : ¬ count < 1 := not_lt.mpr hcount
      simp [LightSensor.readEvents, h1, hpend, hdis]
    · have hpend2 : l.mHasPendingEvent = false := by simpa using hpend
      rw [light_readEvents_records P l count now rs hcount hpend2]
      exact (readLoop_no_emit (light_readBody_decodeBody P l.mEnabled) _ (Or.inl hdis)
        ⟨count, 0, [], l.mPendingEvent, [Effect.fill]⟩).1
  · intro hdis capacity hcap
    rw [(AccelerationSensor.readEvents_disabled P a count rs hcount hdis).2.2]
    have hcap1 : 1 ≤ capacity := by omega
    rw [accel_readEvents_records P _ capacity rs hcap1]
    have hb := accel_readBody_decodeBody P (1 : Int)
    have hall := readLoop_all hb (a.mInputReader.fill (ReadOutcome.records rs)).1.mBuffer
      ⟨capacity, 0, [], a.mPendingEvent, [Effect.fill]⟩ (by show capacity ≠ 0; omega)
      (fun _ => hcap)
    dsimp only
    rw [hall]
    dsimp only
    rw [foldl_body_pending hb]
  · intro hdis hcap handle en count2 io sync hen hio hcount2 hsync
    rw [(AccelerationSensor.readEvents_disabled P a count rs hcount hdis).2.2]
    have hnot : ¬ io.ret < 0 := not_lt.mpr hio
    have hsens : (AccelerationSensor.enable
        { a with
          mPendingEvent := (a.mInputReader.fill (ReadOutcome.records rs)).1.mBuffer.foldl
            (AccelerationSensor.pendingAfter P) a.mPendingEvent
          mInputReader := { numEvents := a.mInputReader.numEvents, mBuffer := [] } }
        handle en io).sensor
        = { a with
            mEnabled := 1
            mPendingEvent := (a.mInputReader.fill (ReadOutcome.records rs)).1.mBuffer.foldl
              (AccelerationSensor.pendingAfter P) a.mPendingEvent
            mInputReader := { numEvents := a.mInputReader.numEvents, mBuffer := [] } } := by
      simp [AccelerationSensor.enable, hen, hdis, hnot]
    rw [hsens, accel_readEvents_records P _ count2 [sync] hcount2]
    have hfill : (InputEventCircularReader.fill
        { numEvents := a.mInputReader.numEvents, mBuffer := [] }
        (ReadOutcome.records [sync])).1.mBuffer = [sync] := by
      obtain ⟨n, hn⟩ : ∃ n, a.mInputReader.numEvents = n + 1 :=
        ⟨a.mInputReader.numEvents - 1, by omega⟩
      simp [InputEventCircularReader.fill, hn]
    have hc2 : ¬ count2 = 0 := by omega
    have h03 : ¬ ((0 : Nat) = 3) := by decide
    dsimp only
    rw [hfill]
    simp [readLoop, hc2, AccelerationSensor.readBody, hsync, EV_SYN, EV_ABS]

/-- An ABS record read while disabled, then enable and a SYNC at 2 s. -/
theorem C8_suppressed_when_disabled_witness :
    (1 : Int) ≤ 4 ∧ exampleAccel.mEnabled = 0 ∧
    (AccelerationSensor.readEvents examplePlatform exampleAccel 4
      (ReadOutcome.records [absRecord 0 1000, synRecord 1 0])).ret = 0 ∧
    (AccelerationSensor.readEvents examplePlatform
      ((AccelerationSensor.readEvents examplePlatform exampleAccel 4
        (ReadOutcome.records [absRecord 0 1000, synRecord 1 0])).sensor.enable 0 1 ⟨0, 0⟩).sensor
      4 (ReadOutcome.records [synRecord 2 0])).data
      = [{ (AccelerationSensor.readEvents examplePlatform exampleAccel 4
            (ReadOutcome.records [absRecord 0 1000, synRecord 1 0])).sensor.mPendingEvent with
          timestamp := timevalToNano (synRecord 2 0).time }] :=
  ⟨by decide, by decide,
    ((C8_suppressed_when_disabled examplePlatform exampleAccel exampleLight 4 0
      [absRecord 0 1000, synRecord 1 0] (by decide)).1 (by decide)).1,
    (C8_suppressed_when_disabled examplePlatform exampleAccel exampleLight 4 0
      [absRecord 0 1000, synRecord 1 0] (by decide)).2.2.2 (by decide) (by decide)
      0 1 4 ⟨0, 0⟩ (synRecord 2 0) (by decide) (by decide) (by decide) (by decide)⟩

/-- C9: timestamp fidelity. On the decode path the i-th event written by readEvents of either
adapter carries sec * 10^9 + usec * 10^3 of the i-th SYNC record processed, (sec, usec) being
that record's kernel time (nothing is written while the latch is clear); the synthetic light
emission carries the monotonic now-timestamp instead. -/
theorem C9_timestamp_fidelity {F : Type} [Mul F] [IntCast F] [NatCast F] (P : Platform F)
    (a : AccelerationSensor F) (l : LightSensor F) (count now : Int) (rs : List input_event)
    (rd : ReadOutcome) (hcount : 1 ≤ count) :
    ((AccelerationSensor.readEvents P a count (ReadOutcome.records rs)).data.map
        (fun e => e.timestamp)
      = if a.mEnabled ≠ 0 then
          ((syncRecords (a.mInputReader.fill (ReadOutcome.records rs)).1.mBuffer).take
            count.toNat).map (fun e => e.time.tv_sec * 1000000000 + e.time.tv_usec * 1000)
        else []) ∧
    (l.mHasPendingEvent = false →
      (LightSensor.readEvents P l count now (ReadOutcome.records rs)).data.map
          (fun e => e.timestamp)
        = if l.mEnabled ≠ 0 then
            ((syncRecords (l.mInputReader.fill (ReadOutcome.records rs)).1.mBuffer).take
              count.toNat).map (fun e => e.time.tv_sec * 1000000000 + e.time.tv_usec * 1000)
          else []) ∧
    (l.mHasPendingEvent = true →
      (LightSensor.readEvents P l count now rd).data.map (fun e => e.timestamp) = [now]) := by
  have hc0 : (0 : Int) ≤ count := by omega
  refine ⟨?_, ?_, ?_⟩
  · rw [accel_readEvents_records P a count rs hcount]
    have hb := accel_readBody_decodeBody P a.mEnabled
    by_cases hen : a.mEnabled = 0
    · have hno := readLoop_no_emit hb (a.mInputReader.fill (ReadOutcome.records rs)).1.mBuffer
        (Or.inl hen) ⟨count, 0, [], a.mPendingEvent, [Effect.fill]⟩
      dsimp only
      rw [hno.2.1]
      simp [hen]
    · have hts := readLoop_timestamps hb hen
        (a.mInputReader.fill (ReadOutcome.records rs)).1.mBuffer
        ⟨count, 0, [], a.mPendingEvent, [Effect.fill]⟩ hc0
      dsimp only
      rw [hts, if_pos hen]
      simp [timevalToNano]
  · intro hpend
    rw [light_readEvents_records P l count now rs hcount hpend]
    have hb := light_readBody_decodeBody P l.mEnabled
    by_cases hen : l.mEnabled = 0
    · have hno := readLoop_no_emit hb (l.mInputReader.fill (ReadOutcome.records rs)).1.mBuffer
        (Or.inl hen) ⟨count, 0, [], l.mPendingEvent, [Effect.fill]⟩
      dsimp only
      rw [hno.2.1]
      simp [hen]
    · have hts := readLoop_timestamps hb hen
        (l.mInputReader.fill (ReadOutcome.records rs)).1.mBuffer
        ⟨count, 0, [], l.mPendingEvent, [Effect.fill]⟩ hc0
      dsimp only
      rw [hts, if_pos hen]
      simp [timevalToNano]
  · intro hpend
    have h1 : ¬ count < 1 := not_lt.mpr hcount
    simp [LightSensor.readEvents, h1, hpend]

/-- A SYNC at sec = 1, usec = 1 on the enabled accelerometer yields timestamp 1000001000. -/
theorem C9_timestamp_fidelity_witness :
    (1 : Int) ≤ 4 ∧
    (AccelerationSensor.readEvents examplePlatform (exampleAccel.enable 0 1 ⟨0, 0⟩).sensor 4
      (ReadOutcome.records [absRecord 0 100, synRecord 1 1])).data.map (fun e => e.timestamp)
      = [1000001000] :=
  ⟨by decide,
    ((C9_timestamp_fidelity examplePlatform (exampleAccel.enable 0 1 ⟨0, 0⟩).sensor exampleLight
      4 0 [absRecord 0 100, synRecord 1 1] (ReadOutcome.records []) (by decide)).1).trans
      (by decide)⟩

/-! ## The accelerometer payload -/

theorem lastAbsValue_nil (code : Nat) : lastAbsValue code [] = none := rfl

theorem lastAbsValue_append (code : Nat) (a b : List input_event) :
    lastAbsValue code (a ++ b) = (lastAbsValue code b).or (lastAbsValue code a) := by
  unfold lastAbsValue
  rw [List.filter_append, List.getLast?_append]
  cases ((List.filter (fun e => decide (e.type = EV_ABS ∧ e.code = code)) b).getLast?) <;> rfl

theorem lastAbsValue_singleton (code : Nat) (ev : input_event) :
    lastAbsValue code [ev]
      = if ev.type = EV_ABS ∧ ev.code = code then some ev.value else none := by
  unfold lastAbsValue
  by_cases h : ev.type = EV_ABS ∧ ev.code = code
  · simp [List.filter_cons, h]
  · rw [if_neg h]
    simp only [List.filter_cons, h, decide_False, Bool.false_eq_true, if_false, List.filter_nil]
    rfl

theorem axisComponent_nil {F : Type} [Mul F] [IntCast F] (scale init : F) (code : Nat) :
    axisComponent scale init code [] = init := rfl

theorem axisComponent_append {F : Type} [Mul F] [IntCast F] (scale init : F) (code : Nat)
    (a b : List input_event) :
    axisComponent scale init code (a ++ b)
      = axisComponent scale (axisComponent scale init code a) code b := by
  unfold axisComponent
  rw [lastAbsValue_append]
  cases lastAbsValue code b <;> rfl

theorem axisComponent_concat {F : Type} [Mul F] [IntCast F] (scale init : F) (code : Nat)
    (recs : List input_event) (ev : input_event) :
    axisComponent scale init code (recs ++ [ev])
      = if ev.type = EV_ABS ∧ ev.code = code then (ev.value : F) * scale
        else axisComponent scale init code recs := by
  rw [axisComponent_append]
  unfold axisComponent
  rw [lastAbsValue_singleton]
  by_cases h : ev.type = EV_ABS ∧ ev.code = code
  · rw [if_pos h, if_pos h]
  · rw [if_neg h, if_neg h]

/-- A component that each record either sets to `value * scale` (an ABS record of the axis) or
keeps is, after any sequence of records, the expected axis component. -/
theorem foldl_axisComponent {F : Type} [Mul F] [IntCast F]
    (upd : sensors_event_t F → input_event → sensors_event_t F) (proj : sensors_event_t F → F)
    (scale : F) (code : Nat)
    (hupd : ∀ pe ev, proj (upd pe ev)
      = if ev.type = EV_ABS ∧ ev.code = code then (ev.value : F) * scale else proj pe)
    (pe : sensors_event_t F) (recs : List input_event) :
    proj (recs.foldl upd pe) = axisComponent scale (proj pe) code recs := by
  induction recs using List.reverseRecOn with
  | nil => rfl
  | append_singleton l ev ih =>
    rw [List.foldl_append, List.foldl_cons, List.foldl_nil, hupd, axisComponent_concat, ih]

/-- The pending update of the accelerometer sets each axis from the ABS records of that axis
only, the axis codes being distinct. -/
theorem AccelerationSensor.pendingAfter_axes {F : Type} [Mul F] [IntCast F] (P : Platform F)
    (hxy : P.EVENT_TYPE_ACCEL_X ≠ P.EVENT_TYPE_ACCEL_Y)
    (hxz : P.EVENT_TYPE_ACCEL_X ≠ P.EVENT_TYPE_ACCEL_Z)
    (hyz : P.EVENT_TYPE_ACCEL_Y ≠ P.EVENT_TYPE_ACCEL_Z)
    (pe : sensors_event_t F) (ev : input_event) :
    ((AccelerationSensor.pendingAfter P pe ev).acceleration.x
      = if ev.type = EV_ABS ∧ ev.code = P.EVENT_TYPE_ACCEL_X
        then (ev.value : F) * P.CONVERT_A_X else pe.acceleration.x) ∧
    ((AccelerationSensor.pendingAfter P pe ev).acceleration.y
      = if ev.type = EV_ABS ∧ ev.code = P.EVENT_TYPE_ACCEL_Y
        then (ev.value : F) * P.CONVERT_A_Y else pe.acceleration.y) ∧
    ((AccelerationSensor.pendingAfter P pe ev).acceleration.z
      = if ev.type = EV_ABS ∧ ev.code = P.EVENT_TYPE_ACCEL_Z
        then (ev.value : F) * P.CONVERT_A_Z else pe.acceleration.z) := by
  simp only [AccelerationSensor.pendingAfter, AccelerationSensor.processEvent]
  by_cases ht : ev.type = EV_ABS
  · by_cases hx : ev.code = P.EVENT_TYPE_ACCEL_X
    · simp [ht, hx, hxy, hxz]
    · by_cases hy : ev.code = P.EVENT_TYPE_ACCEL_Y
      · simp [ht, hy, hyz, hxy.symm]
      · by_cases hz : ev.code = P.EVENT_TYPE_ACCEL_Z
        · simp [ht, hz, hyz.symm, hxz.symm]
        · simp [ht, hx, hy, hz]
  · by_cases hs : ev.type = EV_SYN
    · simp [hs, EV_SYN, EV_ABS]
    · simp [ht, hs]

/-- The pending sample of the accelerometer after any records carries on each axis the expected
component. -/
theorem AccelerationSensor.foldl_pendingAfter_axes {F : Type} [Mul F] [IntCast F]
    (P : Platform F)
    (hxy : P.EVENT_TYPE_ACCEL_X ≠ P.EVENT_TYPE_ACCEL_Y)
    (hxz : P.EVENT_TYPE_ACCEL_X ≠ P.EVENT_TYPE_ACCEL_Z)
    (hyz : P.EVENT_TYPE_ACCEL_Y ≠ P.EVENT_TYPE_ACCEL_Z)
    (pe : sensors_event_t F) (recs : List input_event) :
    (recs.foldl (AccelerationSensor.pendingAfter P) pe).acceleration.x
      = axisComponent P.CONVERT_A_X pe.acceleration.x P.EVENT_TYPE_ACCEL_X recs ∧
    (recs.foldl (AccelerationSensor.pendingAfter P) pe).acceleration.y
      = axisComponent P.CONVERT_A_Y pe.acceleration.y P.EVENT_TYPE_ACCEL_Y recs ∧
    (recs.foldl (AccelerationSensor.pendingAfter P) pe).acceleration.z
      = axisComponent P.CONVERT_A_Z pe.acceleration.z P.EVENT_TYPE_ACCEL_Z recs :=
  ⟨foldl_axisComponent (AccelerationSensor.pendingAfter P) (fun e => e.acceleration.x) _ _
      (fun pe ev => (AccelerationSensor.pendingAfter_axes P hxy hxz hyz pe ev).1) pe recs,
    foldl_axisComponent (AccelerationSensor.pendingAfter P) (fun e => e.acceleration.y) _ _
      (fun pe ev => (AccelerationSensor.pendingAfter_axes P hxy hxz hyz pe ev).2.1) pe recs,
    foldl_axisComponent (AccelerationSensor.pendingAfter P) (fun e => e.acceleration.z) _ _
      (fun pe ev => (AccelerationSensor.pendingAfter_axes P hxy hxz hyz pe ev).2.2) pe recs⟩

/-- Records other than ABS records leave the acceleration vector of the pending sample
alone. -/
theorem AccelerationSensor.foldl_pendingAfter_no_abs {F : Type} [Mul F] [IntCast F]
    (P : Platform F) (recs : List input_event) (hno : ∀ e ∈ recs, e.type ≠ EV_ABS) :
    ∀ pe : sensors_event_t F,
      (recs.foldl (AccelerationSensor.pendingAfter P) pe).acceleration = pe.acceleration := by
  induction recs with
  | nil => intro pe; rfl
  | cons ev rest ih =>
    intro pe
    rw [List.foldl_cons, ih (fun e he => hno e (List.mem_cons_of_mem ev he))]
    have ht : ¬ ev.type = EV_ABS := hno ev (List.mem_cons_self ev rest)
    simp only [AccelerationSensor.pendingAfter, if_neg ht]
    split_ifs <;> rfl

/-- The j-th SYNC record of a sequence splits it. -/
theorem syncRecords_split (buf : List input_event) :
    ∀ j, j < (syncRecords buf).length →
      ∃ pre sync post, buf = pre ++ sync :: post ∧ sync.type = EV_SYN ∧
        (syncRecords pre).length = j := by
  induction buf with
  | nil => intro j hj; simp [syncRecords] at hj
  | cons ev rest ih =>
    intro j hj
    rw [syncRecords_cons] at hj
    by_cases hs : ev.type = EV_SYN
    · rw [if_pos hs, List.length_cons] at hj
      cases j with
      | zero => exact ⟨[], ev, rest, rfl, hs, rfl⟩
      | succ j =>
        obtain ⟨pre, sync, post, h1, h2, h3⟩ := ih j (by omega)
        refine ⟨ev :: pre, sync, post, by rw [h1]; rfl, h2, ?_⟩
        rw [syncRecords_cons, if_pos hs, List.length_cons, h3]
    · rw [if_neg hs] at hj
      obtain ⟨pre, sync, post, h1, h2, h3⟩ := ih j hj
      refine ⟨ev :: pre, sync, post, by rw [h1]; rfl, h2, ?_⟩
      rw [syncRecords_cons, if_neg hs, h3]

/-- With the latch set, the SYNC record that follows the prefix `pre` writes, when capacity
allows, the slot numbered by the SYNC records of `pre`: the pending sample after `pre`, stamped
with the SYNC time. -/
theorem readLoop_emits_at {F : Type} {en : Int}
    {upd : sensors_event_t F → input_event → sensors_event_t F}
    {body : LoopState F → input_event → LoopState F} (hb : DecodeBody en upd body)
    (hen : en ≠ 0) (pre post : List input_event) (sync : input_event)
    (hsync : sync.type = EV_SYN) (st : LoopState F) (hdata : st.data = [])
    (hcap : ((syncRecords pre).length : Int) < st.count) :
    (readLoop body (pre ++ sync :: post) st).1.data[(syncRecords pre).length]?
      = some { pre.foldl upd st.mPendingEvent with timestamp := timevalToNano sync.time } := by
  have hc : st.count ≠ 0 := by
    have : (0 : Int) ≤ ((syncRecords pre).length : Int) := Int.natCast_nonneg _
    omega
  rw [readLoop_append hb pre (sync :: post) st hc (fun _ => hcap), readLoop]
  have hfold := foldl_body_data_length hb hen pre st
  have hc1 : ¬ (pre.foldl body st).count = 0 := by
    rw [hfold.2]
    omega
  rw [if_neg hc1]
  obtain ⟨more, hmore⟩ := readLoop_data_prefix hb post (body (pre.foldl body st) sync)
  rw [hmore, hb.data_eq, if_pos ⟨hsync, hen⟩, hb.upd_sync _ _ hsync, foldl_body_pending hb]
  have hlen : (pre.foldl body st).data.length = (syncRecords pre).length := by
    rw [hfold.1, hdata]
    simp
  rw [← hlen, List.append_assoc, List.getElem?_append_right (le_refl _)]
  simp

/-- Every call extends the history by the records it consumes and updates the pending sample by
folding the pending update over them. -/
theorem AccelSystem.step_consumed {F : Type} [Mul F] [IntCast F] (P : Platform F)
    (sys : AccelSystem F) (c : AccelCall) :
    ∃ recs, (AccelSystem.step P sys c).consumed = sys.consumed ++ recs ∧
      (AccelSystem.step P sys c).sensor.mPendingEvent
        = recs.foldl (AccelerationSensor.pendingAfter P) sys.sensor.mPendingEvent := by
  cases c with
  | enable handle en io =>
    refine ⟨[], by simp [AccelSystem.step], ?_⟩
    simp only [AccelSystem.step, AccelerationSensor.enable, List.foldl_nil]
    split_ifs <;> rfl
  | enableOrientation en io =>
    refine ⟨[], by simp [AccelSystem.step], ?_⟩
    simp only [AccelSystem.step, AccelerationSensor.enableOrientation, List.foldl_nil]
    split_ifs <;> rfl
  | setDelay ns io =>
    refine ⟨[], by simp [AccelSystem.step], ?_⟩
    simp only [AccelSystem.step, AccelerationSensor.setDelay, List.foldl_nil]
    split_ifs <;> rfl
  | readEvents count rd =>
    by_cases h1 : count < 1
    · exact ⟨[], by simp [AccelSystem.step, AccelerationSensor.readEvents, h1],
        by simp [AccelSystem.step, AccelerationSensor.readEvents, h1]⟩
    · by_cases h2 : (sys.sensor.mInputReader.fill rd).2 < 0
      · exact ⟨[], by simp [AccelSystem.step, AccelerationSensor.readEvents, h1, h2],
          by simp [AccelSystem.step, AccelerationSensor.readEvents, h1, h2]⟩
      · obtain ⟨recs, hsplit, hfold⟩ :=
          readLoop_consumed (AccelerationSensor.readBody P sys.sensor.mEnabled)
            (sys.sensor.mInputReader.fill rd).1.mBuffer
            ⟨count, 0, [], sys.sensor.mPendingEvent, [Effect.fill]⟩
        refine ⟨recs, ?_, ?_⟩
        · simp only [AccelSystem.step, AccelerationSensor.readEvents, if_neg h1, if_neg h2]
          congr 1
          have hlen := congrArg List.length hsplit
          rw [List.length_append] at hlen
          rw [show (sys.sensor.mInputReader.fill rd).1.mBuffer.length
              - (readLoop (AccelerationSensor.readBody P sys.sensor.mEnabled)
                  (sys.sensor.mInputReader.fill rd).1.mBuffer
                  ⟨count, 0, [], sys.sensor.mPendingEvent, [Effect.fill]⟩).2.length
              = recs.length by omega]
          conv_lhs => rw [hsplit]
          exact List.take_left' rfl
        · simp only [AccelSystem.step, AccelerationSensor.readEvents, if_neg h1, if_neg h2]
          rw [hfold, foldl_body_pending
            (accel_readBody_decodeBody P sys.sensor.mEnabled)]

/-- After any sequence of calls the pending sample is the fold of the pending update over the
records consumed in between. -/
theorem AccelSystem.run_consumed {F : Type} [Mul F] [IntCast F] (P : Platform F)
    (calls : List AccelCall) :
    ∀ sys : AccelSystem F,
      ∃ recs, (AccelSystem.run P sys calls).consumed = sys.consumed ++ recs ∧
        (AccelSystem.run P sys calls).sensor.mPendingEvent
          = recs.foldl (AccelerationSensor.pendingAfter P) sys.sensor.mPendingEvent := by
  induction calls with
  | nil => intro sys; exact ⟨[], by simp [AccelSystem.run], rfl⟩
  | cons c cs ih =>
    intro sys
    obtain ⟨r1, h1, h2⟩ := AccelSystem.step_consumed P sys c
    obtain ⟨r2, h3, h4⟩ := ih (AccelSystem.step P sys c)
    refine ⟨r1 ++ r2, ?_, ?_⟩
    · show (AccelSystem.run P (AccelSystem.step P sys c) cs).consumed = _
      rw [h3, h1, List.append_assoc]
    · show (AccelSystem.run P (AccelSystem.step P sys c) cs).sensor.mPendingEvent = _
      rw [h4, h2, List.foldl_append]

/-- C10: the accelerometer payload. The axis codes being distinct, in every state reached from
construction by any sequence of calls each event emitted by readEvents is the event of a SYNC
record of the buffered records, and each of its components x, y, z equals v * CONVERT_A_axis for
the value v of the most recent ABS record of that axis consumed before that SYNC, in this call or
an earlier one, or the component the constructor left when there was none. Consequently ABS
records for x, y, z followed by a SYNC yield the three scaled values, and two SYNC records with
no ABS record between them emit events with the same x, y, z. -/
theorem C10_accelerometer_payload {F : Type} [Mul F] [IntCast F] [Zero F] (P : Platform F)
    (hxy : P.EVENT_TYPE_ACCEL_X ≠ P.EVENT_TYPE_ACCEL_Y)
    (hxz : P.EVENT_TYPE_ACCEL_X ≠ P.EVENT_TYPE_ACCEL_Z)
    (hyz : P.EVENT_TYPE_ACCEL_Y ≠ P.EVENT_TYPE_ACCEL_Z) :
    (∀ (ge : GetEnableOutcome) (ax ay az : AbsOutcome) (calls : List AccelCall) (count : Int)
      (rs : List input_event) (j : Nat) (ev : sensors_event_t F),
      (AccelerationSensor.readEvents P
        (AccelSystem.run P (AccelSystem.init P ge ax ay az) calls).sensor count
        (ReadOutcome.records rs)).data[j]? = some ev →
      ∃ pre sync post,
        ((AccelSystem.run P (AccelSystem.init P ge ax ay az) calls).sensor.mInputReader.fill
          (ReadOutcome.records rs)).1.mBuffer = pre ++ sync :: post ∧
        sync.type = EV_SYN ∧ (syncRecords pre).length = j ∧
        ev.acceleration.x = axisComponent P.CONVERT_A_X
          (AccelerationSensor.new P ge ax ay az).mPendingEvent.acceleration.x
          P.EVENT_TYPE_ACCEL_X
          ((AccelSystem.run P (AccelSystem.init P ge ax ay az) calls).consumed ++ pre) ∧
        ev.acceleration.y = axisComponent P.CONVERT_A_Y
          (AccelerationSensor.new P ge ax ay az).mPendingEvent.acceleration.y
          P.EVENT_TYPE_ACCEL_Y
          ((AccelSystem.run P (AccelSystem.init P ge ax ay az) calls).consumed ++ pre) ∧
        ev.acceleration.z = axisComponent P.CONVERT_A_Z
          (AccelerationSensor.new P ge ax ay az).mPendingEvent.acceleration.z
          P.EVENT_TYPE_ACCEL_Z
          ((AccelSystem.run P (AccelSystem.init P ge ax ay az) calls).consumed ++ pre)) ∧
    (∀ (s : AccelerationSensor F) (count vx vy vz : Int) (t1 t2 t3 t4 : timeval)
      (code4 : Nat) (value4 : Int),
      s.mEnabled ≠ 0 → s.mInputReader.mBuffer = [] → 4 ≤ s.mInputReader.numEvents →
      1 ≤ count →
      (AccelerationSensor.readEvents P s count
        (ReadOutcome.records
          [⟨t1, EV_ABS, P.EVENT_TYPE_ACCEL_X, vx⟩, ⟨t2, EV_ABS, P.EVENT_TYPE_ACCEL_Y, vy⟩,
            ⟨t3, EV_ABS, P.EVENT_TYPE_ACCEL_Z, vz⟩, ⟨t4, EV_SYN, code4, value4⟩])).data.map
          (fun e => (e.acceleration.x, e.acceleration.y, e.acceleration.z))
        = [((vx : F) * P.CONVERT_A_X, (vy : F) * P.CONVERT_A_Y, (vz : F) * P.CONVERT_A_Z)]) ∧
    (∀ (s : AccelerationSensor F) (count : Int) (rs pre mid post : List input_event)
      (sync1 sync2 : input_event),
      s.mEnabled ≠ 0 →
      (s.mInputReader.fill (ReadOutcome.records rs)).1.mBuffer
        = pre ++ sync1 :: (mid ++ sync2 :: post) →
      sync1.type = EV_SYN → sync2.type = EV_SYN → (∀ e ∈ mid, e.type ≠ EV_ABS) →
      ((syncRecords (pre ++ sync1 :: mid)).length : Int) < count →
      ∃ e1 e2,
        (AccelerationSensor.readEvents P s count (ReadOutcome.records rs)).data[
          (syncRecords pre).length]? = some e1 ∧
        (AccelerationSensor.readEvents P s count (ReadOutcome.records rs)).data[
          (syncRecords (pre ++ sync1 :: mid)).length]? = some e2 ∧
        e1.acceleration.x = e2.acceleration.x ∧ e1.acceleration.y = e2.acceleration.y ∧
        e1.acceleration.z = e2.acceleration.z) := by
  refine ⟨?_, ?_, ?_⟩
  · intro ge ax ay az calls count rs j ev hget
    obtain ⟨hist, hcons, hpend⟩ := AccelSystem.run_consumed P calls (AccelSystem.init P ge ax ay az)
    have hcons2 : (AccelSystem.run P (AccelSystem.init P ge ax ay az) calls).consumed = hist := by
      rw [hcons]
      rfl
    have hpend2 : (AccelSystem.run P (AccelSystem.init P ge ax ay az) calls).sensor.mPendingEvent
        = hist.foldl (AccelerationSensor.pendingAfter P)
          (AccelerationSensor.new P ge ax ay az).mPendingEvent := hpend
    rw [hcons2]
    generalize (AccelSystem.run P (AccelSystem.init P ge ax ay az) calls).sensor = s
      at hget hpend2 ⊢
    have hcount : 1 ≤ count := by
      by_contra hlt
      have hlt2 : count < 1 := by omega
      simp [AccelerationSensor.readEvents, hlt2] at hget
    have hen : s.mEnabled ≠ 0 := by
      intro hdis
      rw [(AccelerationSensor.readEvents_disabled P s count rs hcount hdis).2.1] at hget
      simp at hget
    have hb := accel_readBody_decodeBody P s.mEnabled
    rw [accel_readEvents_records P s count rs hcount] at hget
    dsimp only at hget
    have hnum := readLoop_num_enabled hb hen
      (s.mInputReader.fill (ReadOutcome.records rs)).1.mBuffer
      ⟨count, 0, [], s.mPendingEvent, [Effect.fill]⟩ (by show (0 : Int) ≤ count; omega)
    have hlen := readLoop_data_length hb
      (s.mInputReader.fill (ReadOutcome.records rs)).1.mBuffer
      ⟨count, 0, [], s.mPendingEvent, [Effect.fill]⟩
    simp only [List.length_nil, Nat.cast_zero, sub_self, zero_add] at hnum hlen
    have hj : j < (readLoop (AccelerationSensor.readBody P s.mEnabled)
        (s.mInputReader.fill (ReadOutcome.records rs)).1.mBuffer
        ⟨count, 0, [], s.mPendingEvent, [Effect.fill]⟩).1.data.length := by
      by_contra hge
      rw [List.getElem?_eq_none (by omega)] at hget
      simp at hget
    have hjk : j < (syncRecords (s.mInputReader.fill (ReadOutcome.records rs)).1.mBuffer).length := by
      omega
    have hjc : (j : Int) < count := by omega
    obtain ⟨pre, sync, post, hsplit, hsync, hpre⟩ := syncRecords_split _ j hjk
    have hemit := readLoop_emits_at hb hen pre post sync hsync
      ⟨count, 0, [], s.mPendingEvent, [Effect.fill]⟩ rfl (by rw [hpre]; exact hjc)
    rw [← hsplit, hpre, hget] at hemit
    have hev := Option.some.inj hemit
    have haxes := AccelerationSensor.foldl_pendingAfter_axes P hxy hxz hyz
      (AccelerationSensor.new P ge ax ay az).mPendingEvent (hist ++ pre)
    rw [List.foldl_append, ← hpend2] at haxes
    refine ⟨pre, sync, post, hsplit, hsync, hpre, ?_, ?_, ?_⟩
    · rw [hev]; exact haxes.1
    · rw [hev]; exact haxes.2.1
    · rw [hev]; exact haxes.2.2
  · intro s count vx vy vz t1 t2 t3 t4 code4 value4 hen hbuf hcap hcount
    rw [accel_readEvents_records P s count _ hcount]
    have hfill : (s.mInputReader.fill
        (ReadOutcome.records
          [⟨t1, EV_ABS, P.EVENT_TYPE_ACCEL_X, vx⟩, ⟨t2, EV_ABS, P.EVENT_TYPE_ACCEL_Y, vy⟩,
            ⟨t3, EV_ABS, P.EVENT_TYPE_ACCEL_Z, vz⟩, ⟨t4, EV_SYN, code4, value4⟩])).1.mBuffer
        = [⟨t1, EV_ABS, P.EVENT_TYPE_ACCEL_X, vx⟩, ⟨t2, EV_ABS, P.EVENT_TYPE_ACCEL_Y, vy⟩,
            ⟨t3, EV_ABS, P.EVENT_TYPE_ACCEL_Z, vz⟩, ⟨t4, EV_SYN, code4, value4⟩] := by
      obtain ⟨n, hn⟩ : ∃ n, s.mInputReader.numEvents = n + 4 :=
        ⟨s.mInputReader.numEvents - 4, by omega⟩
      simp [InputEventCircularReader.fill, hbuf, hn]
    have hc : ¬ count = 0 := by omega
    dsimp only
    rw [hfill]
    simp [readLoop, hc, AccelerationSensor.readBody, AccelerationSensor.processEvent, hen,
      hxy.symm, hxz.symm, hyz.symm, EV_SYN, EV_ABS]
  · intro s count rs pre mid post sync1 sync2 hen hsplit hs1 hs2 hmid hcap
    have hb := accel_readBody_decodeBody P s.mEnabled
    have hcap0 : ((syncRecords pre).length : Int) < count := by
      rw [syncRecords_append, List.length_append] at hcap
      push_cast at hcap
      omega
    have hcount : 1 ≤ count := by omega
    rw [accel_readEvents_records P s count rs hcount]
    dsimp only
    have hemit1 := readLoop_emits_at hb hen pre (mid ++ sync2 :: post) sync1 hs1
      ⟨count, 0, [], s.mPendingEvent, [Effect.fill]⟩ rfl hcap0
    have hemit2 := readLoop_emits_at hb hen (pre ++ sync1 :: mid) post sync2 hs2
      ⟨count, 0, [], s.mPendingEvent, [Effect.fill]⟩ rfl hcap
    have hshape : (pre ++ sync1 :: mid) ++ sync2 :: post = pre ++ sync1 :: (mid ++ sync2 :: post) := by
      simp
    rw [hshape] at hemit2
    rw [hsplit]
    refine ⟨_, _, hemit1, hemit2, ?_⟩
    have hnoabs : ∀ e ∈ sync1 :: mid, e.type ≠ EV_ABS := by
      intro e he
      rcases List.mem_cons.mp he with h | h
      · rw [h, hs1]
        decide
      · exact hmid e h
    have hacc := AccelerationSensor.foldl_pendingAfter_no_abs P (sync1 :: mid) hnoabs
      (pre.foldl (AccelerationSensor.pendingAfter P) s.mPendingEvent)
    rw [← List.foldl_append] at hacc
    dsimp only
    rw [hacc]
    exact ⟨rfl, rfl, rfl⟩

/-- The scale example with values 1000, 2000, 3000 on the platform with scales 2, 3, 5. -/
theorem C10_accelerometer_payload_witness :
    examplePlatform.EVENT_TYPE_ACCEL_X ≠ examplePlatform.EVENT_TYPE_ACCEL_Y ∧
    examplePlatform.EVENT_TYPE_ACCEL_X ≠ examplePlatform.EVENT_TYPE_ACCEL_Z ∧
    examplePlatform.EVENT_TYPE_ACCEL_Y ≠ examplePlatform.EVENT_TYPE_ACCEL_Z ∧
    (AccelerationSensor.readEvents examplePlatform (exampleAccel.enable 0 1 ⟨0, 0⟩).sensor 4
      (ReadOutcome.records
        [absRecord 0 1000, absRecord 1 2000, absRecord 2 3000, synRecord 1 1])).data.map
        (fun e => (e.acceleration.x, e.acceleration.y, e.acceleration.z))
      = [(2000, 6000, 15000)] :=
  ⟨by decide, by decide, by decide,
    ((C10_accelerometer_payload examplePlatform (by decide) (by decide) (by decide)).2.1
      (exampleAccel.enable 0 1 ⟨0, 0⟩).sensor 4 1000 2000 3000 ⟨0, 0⟩ ⟨0, 0⟩ ⟨0, 0⟩ ⟨1, 1⟩ 0 0
      (by decide) (by decide) (by decide) (by decide)).trans (by decide)⟩

/-! ## Startup seeding, synthetic emission and the remaining control contracts -/

/-- C11: startup seeding. When GET_ENABLE succeeds with a non-zero flag and the three EVIOCGABS
queries succeed with cached values, the constructed adapter has mEnabled = 1,
mOrientationEnabled = 0 and the pending vector of the three values times the axis scales, and a
first readEvents whose records reach a SYNC before any ABS record writes that vector to slot 0;
when GET_ENABLE reports 0 or fails, the adapter starts with mEnabled = 0 and a zero pending
vector. -/
theorem C11_startup_seeding {F : Type} [Mul F] [IntCast F] [Zero F] (P : Platform F)
    (ge : GetEnableOutcome) (ax ay az : AbsOutcome) :
    (ge.ret = 0 → ge.flags ≠ 0 → ax.ret = 0 → ay.ret = 0 → az.ret = 0 →
      (AccelerationSensor.new P ge ax ay az).mEnabled = 1 ∧
      (AccelerationSensor.new P ge ax ay az).mOrientationEnabled = 0 ∧
      (AccelerationSensor.new P ge ax ay az).mPendingEvent.acceleration.x
        = (ax.value : F) * P.CONVERT_A_X ∧
      (AccelerationSensor.new P ge ax ay az).mPendingEvent.acceleration.y
        = (ay.value : F) * P.CONVERT_A_Y ∧
      (AccelerationSensor.new P ge ax ay az).mPendingEvent.acceleration.z
        = (az.value : F) * P.CONVERT_A_Z ∧
      ∀ (count : Int) (pre post : List input_event) (sync : input_event),
        1 ≤ count → pre.length < 32 → sync.type = EV_SYN →
        (∀ e ∈ pre, e.type ≠ EV_ABS ∧ e.type ≠ EV_SYN) →
        ∃ ev,
          (AccelerationSensor.readEvents P (AccelerationSensor.new P ge ax ay az) count
            (ReadOutcome.records (pre ++ sync :: post))).data[0]? = some ev ∧
          ev.acceleration.x = (ax.value : F) * P.CONVERT_A_X ∧
          ev.acceleration.y = (ay.value : F) * P.CONVERT_A_Y ∧
          ev.acceleration.z = (az.value : F) * P.CONVERT_A_Z ∧
          ev.timestamp = timevalToNano sync.time) ∧
    ((ge.ret ≠ 0 ∨ ge.flags = 0) →
      (AccelerationSensor.new P ge ax ay az).mEnabled = 0 ∧
      (AccelerationSensor.new P ge ax ay az).mOrientationEnabled = 0 ∧
      (AccelerationSensor.new P ge ax ay az).mPendingEvent.acceleration.x = 0 ∧
      (AccelerationSensor.new P ge ax ay az).mPendingEvent.acceleration.y = 0 ∧
      (AccelerationSensor.new P ge ax ay az).mPendingEvent.acceleration.z = 0) := by
  constructor
  · intro hge hflags hax hay haz
    have hE : (AccelerationSensor.new P ge ax ay az).mEnabled = 1 := by
      simp [AccelerationSensor.new, hge, hflags]
    have hbuf : (AccelerationSensor.new P ge ax ay az).mInputReader
        = { numEvents := 32, mBuffer := [] } := by
      simp only [AccelerationSensor.new]
      split_ifs
      rfl
    have hx : (AccelerationSensor.new P ge ax ay az).mPendingEvent.acceleration.x
        = (ax.value : F) * P.CONVERT_A_X := by
      simp [AccelerationSensor.new, hge, hflags, hax, hay, haz]
    have hy : (AccelerationSensor.new P ge ax ay az).mPendingEvent.acceleration.y
        = (ay.value : F) * P.CONVERT_A_Y := by
      simp [AccelerationSensor.new, hge, hflags, hax, hay, haz]
    have hz : (AccelerationSensor.new P ge ax ay az).mPendingEvent.acceleration.z
        = (az.value : F) * P.CONVERT_A_Z := by
      simp [AccelerationSensor.new, hge, hflags, hax, hay, haz]
    refine ⟨hE, by simp [AccelerationSensor.new, hge, hflags], hx, hy, hz, ?_⟩
    intro count pre post sync hcount hpre hsync hnone
    have hen : (AccelerationSensor.new P ge ax ay az).mEnabled ≠ 0 := by
      rw [hE]
      decide
    have hb := accel_readBody_decodeBody P (AccelerationSensor.new P ge ax ay az).mEnabled
    have hfill : ∃ post2, ((AccelerationSensor.new P ge ax ay az).mInputReader.fill
        (ReadOutcome.records (pre ++ sync :: post))).1.mBuffer = pre ++ sync :: post2 := by
      rw [hbuf]
      refine ⟨post.take (32 - pre.length - 1), ?_⟩
      simp only [InputEventCircularReader.fill, List.nil_append, List.length_nil, Nat.sub_zero]
      rw [List.take_append_eq_append_take, List.take_of_length_le (by omega)]
      obtain ⟨n, hn⟩ : ∃ n, 32 - pre.length = n + 1 := ⟨32 - pre.length - 1, by omega⟩
      rw [hn, List.take_succ_cons]
      simp
    obtain ⟨post2, hfill2⟩ := hfill
    have hnosync : syncRecords pre = [] :=
      syncRecords_eq_nil pre (fun e he => (hnone e he).2)
    have hemit := readLoop_emits_at hb hen pre post2 sync hsync
      ⟨count, 0, [], (AccelerationSensor.new P ge ax ay az).mPendingEvent, [Effect.fill]⟩ rfl
      (by rw [hnosync]; show ((0 : Nat) : Int) < count; omega)
    rw [hnosync] at hemit
    have hacc := AccelerationSensor.foldl_pendingAfter_no_abs P pre
      (fun e he => (hnone e he).1) (AccelerationSensor.new P ge ax ay az).mPendingEvent
    rw [accel_readEvents_records P _ count _ hcount]
    dsimp only
    rw [hfill2]
    refine ⟨_, hemit, ?_, ?_, ?_, rfl⟩
    · show (List.foldl (AccelerationSensor.pendingAfter P) _ pre).acceleration.x = _
      rw [hacc, hx]
    · show (List.foldl (AccelerationSensor.pendingAfter P) _ pre).acceleration.y = _
      rw [hacc, hy]
    · show (List.foldl (AccelerationSensor.pendingAfter P) _ pre).acceleration.z = _
      rw [hacc, hz]
  · intro h
    rcases h with h | h
    · simp [AccelerationSensor.new, h]
    · by_cases hge : ge.ret = 0 <;> simp [AccelerationSensor.new, h, hge]

/-- The driver reports enabled with axis cache (10, 20, 30); the first record is a SYNC. -/
theorem C11_startup_seeding_witness :
    (GetEnableOutcome.mk 0 1).ret = 0 ∧ (GetEnableOutcome.mk 0 1).flags ≠ 0 ∧
    (AccelerationSensor.new examplePlatform ⟨0, 1⟩ ⟨0, 10⟩ ⟨0, 20⟩ ⟨0, 30⟩).mEnabled = 1 ∧
    (AccelerationSensor.new examplePlatform ⟨0, 1⟩ ⟨0, 10⟩ ⟨0, 20⟩
      ⟨0, 30⟩).mPendingEvent.acceleration.y = 60 ∧
    (∃ ev,
      (AccelerationSensor.readEvents examplePlatform
        (AccelerationSensor.new examplePlatform ⟨0, 1⟩ ⟨0, 10⟩ ⟨0, 20⟩ ⟨0, 30⟩) 4
        (ReadOutcome.records ([] ++ synRecord 1 0 :: []))).data[0]? = some ev ∧
      ev.acceleration.x = 20 ∧ ev.acceleration.y = 60 ∧ ev.acceleration.z = 150 ∧
      ev.timestamp = timevalToNano (synRecord 1 0).time) :=
  ⟨rfl, by decide,
    ((C11_startup_seeding examplePlatform ⟨0, 1⟩ ⟨0, 10⟩ ⟨0, 20⟩ ⟨0, 30⟩).1 rfl (by decide)
      rfl rfl rfl).1,
    ((C11_startup_seeding examplePlatform ⟨0, 1⟩ ⟨0, 10⟩ ⟨0, 20⟩ ⟨0, 30⟩).1 rfl (by decide)
      rfl rfl rfl).2.2.2.1,
    ((C11_startup_seeding examplePlatform ⟨0, 1⟩ ⟨0, 10⟩ ⟨0, 20⟩ ⟨0, 30⟩).1 rfl (by decide)
      rfl rfl rfl).2.2.2.2.2 4 [] [] (synRecord 1 0) (by decide) (by decide) rfl
      (by simp)⟩

/-- The effects already recorded stay at the front of the trace of the loop. -/
theorem readLoop_effects_prefix {F : Type} (body : LoopState F → input_event → LoopState F)
    (hbody : ∀ st ev, ∃ more, (body st ev).effects = st.effects ++ more)
    (buf : List input_event) :
    ∀ st : LoopState F, ∃ more, (readLoop body buf st).1.effects = st.effects ++ more := by
  induction buf with
  | nil => intro st; exact ⟨[], by simp [readLoop]⟩
  | cons ev rest ih =>
    intro st
    rw [readLoop]
    by_cases hc : st.count = 0
    · rw [if_pos hc]
      exact ⟨[], by simp⟩
    · rw [if_neg hc]
      obtain ⟨m1, h1⟩ := hbody st ev
      obtain ⟨m2, h2⟩ := ih (body st ev)
      exact ⟨m1 ++ m2, by rw [h2, h1, List.append_assoc]⟩

/-- The light loop body only appends to the trace. -/
theorem light_readBody_effects {F : Type} [NatCast F] (P : Platform F) (en : Int)
    (st : LoopState F) (ev : input_event) :
    ∃ more, (LightSensor.readBody P en st ev).effects = st.effects ++ more := by
  simp only [LightSensor.readBody]
  split_ifs <;> first | exact ⟨_, rfl⟩ | exact ⟨[], (List.append_nil _).symm⟩

/-- With no synthetic emission pending and a valid count, the light `readEvents` starts by
filling the reader. -/
theorem light_readEvents_fills {F : Type} [NatCast F] (P : Platform F) (l : LightSensor F)
    (count now : Int) (rd : ReadOutcome) (hcount : 1 ≤ count)
    (hpend : l.mHasPendingEvent = false) :
    (LightSensor.readEvents P l count now rd).effects.head? = some Effect.fill := by
  have h1 : ¬ count < 1 := not_lt.mpr hcount
  simp only [LightSensor.readEvents, if_neg h1, hpend, Bool.false_eq_true, if_false]
  by_cases hfail : (l.mInputReader.fill rd).2 < 0
  · rw [if_pos hfail]
    rfl
  · rw [if_neg hfail]
    obtain ⟨more, hmore⟩ := readLoop_effects_prefix (LightSensor.readBody P l.mEnabled)
      (light_readBody_effects P l.mEnabled) (l.mInputReader.fill rd).1.mBuffer
      ⟨count, 0, [], l.mPendingEvent, [Effect.fill]⟩
    dsimp only
    rw [hmore]
    rfl

/-- C12: the synthetic first light emission. In every state, after enable with a non-zero
argument hasPendingEvents() is true and the next readEvents with count of at least 1 returns 1,
writes to slot 0 the pending sample stamped with the monotonic now-timestamp (its light value is
the last known one, 0 on a fresh adapter), calls getTimestamp only (no fill, no record
consumed), and clears the flag, so that hasPendingEvents() is false afterwards and the following
readEvents fills the reader. -/
theorem C12_synthetic_first_emission {F : Type} [NatCast F] [Zero F] (P : Platform F)
    (l : LightSensor F) (handle en count count2 now now2 : Int) (rd rd2 : ReadOutcome)
    (hen : en ≠ 0) (hcount : 1 ≤ count) (hcount2 : 1 ≤ count2) :
    (l.enable handle en).ret = 0 ∧
    (l.enable handle en).sensor.hasPendingEvents = true ∧
    (LightSensor.readEvents P (l.enable handle en).sensor count now rd).ret = 1 ∧
    (LightSensor.readEvents P (l.enable handle en).sensor count now rd).data
      = [{ l.mPendingEvent with timestamp := now }] ∧
    (LightSensor.readEvents P (l.enable handle en).sensor count now rd).effects
      = [Effect.getTimestamp] ∧
    (LightSensor.readEvents P (l.enable handle en).sensor count now rd).sensor.mInputReader
      = l.mInputReader ∧
    (LightSensor.readEvents P (l.enable handle en).sensor count now rd).sensor.hasPendingEvents
      = false ∧
    (LightSensor.readEvents P
      (LightSensor.readEvents P (l.enable handle en).sensor count now rd).sensor
      count2 now2 rd2).effects.head? = some Effect.fill ∧
    (LightSensor.new P).mPendingEvent.light = 0 := by
  have h1 : ¬ count < 1 := not_lt.mpr hcount
  refine ⟨rfl, ?_, ?_, ?_, ?_, ?_, ?_, ?_, rfl⟩
  · simp [LightSensor.enable, LightSensor.hasPendingEvents, hen]
  · simp [LightSensor.enable, LightSensor.readEvents, hen, h1]
  · simp [LightSensor.enable, LightSensor.readEvents, hen, h1]
  · simp [LightSensor.enable, LightSensor.readEvents, hen, h1]
  · simp [LightSensor.enable, LightSensor.readEvents, hen, h1]
  · simp [LightSensor.enable, LightSensor.readEvents, LightSensor.hasPendingEvents, hen, h1]
  · exact light_readEvents_fills P _ count2 now2 rd2 hcount2
      (by simp [LightSensor.enable, LightSensor.readEvents, hen, h1])

/-- The scenario enable(true) then readEvents(buf, 4) on the fresh light adapter. -/
theorem C12_synthetic_first_emission_witness :
    (1 : Int) ≠ 0 ∧ (1 : Int) ≤ 4 ∧
    (LightSensor.readEvents examplePlatform (exampleLight.enable 0 1).sensor 4 77
      (ReadOutcome.records [synRecord 1 0])).ret = 1 ∧
    (LightSensor.readEvents examplePlatform (exampleLight.enable 0 1).sensor 4 77
      (ReadOutcome.records [synRecord 1 0])).data
      = [{ exampleLight.mPendingEvent with timestamp := 77 }] :=
  ⟨by decide, by decide,
    (C12_synthetic_first_emission examplePlatform exampleLight 0 1 4 4 77 78
      (ReadOutcome.records [synRecord 1 0]) (ReadOutcome.records []) (by decide) (by decide)
      (by decide)).2.2.1,
    (C12_synthetic_first_emission examplePlatform exampleLight 0 1 4 4 77 78
      (ReadOutcome.records [synRecord 1 0]) (ReadOutcome.records []) (by decide) (by decide)
      (by decide)).2.2.2.1⟩

/-- C13: read-error propagation. Whenever readEvents of either adapter, called with count of at
least 1, calls the reader's fill (the light adapter does so when no synthetic emission is
pending) and fill returns a negative value, readEvents returns that value, writes no output
slot, and leaves the adapter as it was: latches, pending sample with its timestamp, synthetic
flag and buffered records. -/
theorem C13_read_error_propagated {F : Type} [Mul F] [IntCast F] [NatCast F] (P : Platform F)
    (a : AccelerationSensor F) (l : LightSensor F) (count now : Int) (rd : ReadOutcome)
    (hcount : 1 ≤ count) :
    ((a.mInputReader.fill rd).2 < 0 →
      (AccelerationSensor.readEvents P a count rd).ret = (a.mInputReader.fill rd).2 ∧
      (AccelerationSensor.readEvents P a count rd).data = [] ∧
      (AccelerationSensor.readEvents P a count rd).effects = [Effect.fill] ∧
      (AccelerationSensor.readEvents P a count rd).sensor = a) ∧
    (l.mHasPendingEvent = false → (l.mInputReader.fill rd).2 < 0 →
      (LightSensor.readEvents P l count now rd).ret = (l.mInputReader.fill rd).2 ∧
      (LightSensor.readEvents P l count now rd).data = [] ∧
      (LightSensor.readEvents P l count now rd).effects = [Effect.fill] ∧
      (LightSensor.readEvents P l count now rd).sensor = l) := by
  have h1 : ¬ count < 1 := not_lt.mpr hcount
  constructor
  · intro hfail
    have hkeep : (a.mInputReader.fill rd).1 = a.mInputReader := by
      cases rd with
      | error e => rfl
      | records rs =>
        exfalso
        simp only [InputEventCircularReader.fill] at hfail
        omega
    simp only [AccelerationSensor.readEvents, if_neg h1, if_pos hfail, hkeep]
    exact ⟨trivial, trivial, trivial, trivial⟩
  · intro hpend hfail
    have hkeep : (l.mInputReader.fill rd).1 = l.mInputReader := by
      cases rd with
      | error e => rfl
      | records rs =>
        exfalso
        simp only [InputEventCircularReader.fill] at hfail
        omega
    simp only [LightSensor.readEvents, if_neg h1, hpend, Bool.false_eq_true, if_false,
      if_pos hfail, hkeep]
    refine ⟨trivial, trivial, trivial, ?_⟩
    cases l
    simp_all

/-- A read that fails with errno 5 on the enabled accelerometer. -/
theorem C13_read_error_propagated_witness :
    (1 : Int) ≤ 4 ∧
    ((exampleAccel.enable 0 1 ⟨0, 0⟩).sensor.mInputReader.fill (ReadOutcome.error 5)).2 < 0 ∧
    (AccelerationSensor.readEvents examplePlatform (exampleAccel.enable 0 1 ⟨0, 0⟩).sensor 4
      (ReadOutcome.error 5)).ret = -5 :=
  ⟨by decide, by decide,
    ((C13_read_error_propagated examplePlatform (exampleAccel.enable 0 1 ⟨0, 0⟩).sensor
      exampleLight 4 0 (ReadOutcome.error 5) (by decide)).1 (by decide)).1.trans (by decide)⟩

/-- C14: no-op on an unchanged desire. In every state, enable whose argument, as 0 or 1, equals
mEnabled, and enableOrientation whose argument, as 0 or 1, equals mOrientationEnabled, return 0,
issue no ioctl (have no effect at all) and leave the adapter unchanged; and repeating a request
that returned 0 is such a no-op. -/
theorem C14_unchanged_desire_noop {F : Type} (s : AccelerationSensor F) (handle d : Int)
    (io io2 : IoctlOutcome) :
    ((if d ≠ 0 then 1 else 0) = s.mEnabled →
      s.enable handle d io = { ret := 0, sensor := s, effects := [] }) ∧
    ((if d ≠ 0 then 1 else 0) = s.mOrientationEnabled →
      s.enableOrientation d io = { ret := 0, sensor := s, effects := [] }) ∧
    ((s.enable handle d io).ret = 0 →
      (s.enable handle d io).sensor.enable handle d io2
        = { ret := 0, sensor := (s.enable handle d io).sensor, effects := [] }) ∧
    ((s.enableOrientation d io).ret = 0 →
      (s.enableOrientation d io).sensor.enableOrientation d io2
        = { ret := 0, sensor := (s.enableOrientation d io).sensor, effects := [] }) := by
  have hnoopE : ∀ t : AccelerationSensor F, (if d ≠ 0 then 1 else 0) = t.mEnabled →
      t.enable handle d io2 = { ret := 0, sensor := t, effects := [] } := by
    intro t h
    simp [AccelerationSensor.enable, h]
  have hnoopO : ∀ t : AccelerationSensor F, (if d ≠ 0 then 1 else 0) = t.mOrientationEnabled →
      t.enableOrientation d io2 = { ret := 0, sensor := t, effects := [] } := by
    intro t h
    simp [AccelerationSensor.enableOrientation, h]
  refine ⟨?_, ?_, ?_, ?_⟩
  · intro h
    simp [AccelerationSensor.enable, h]
  · intro h
    simp [AccelerationSensor.enableOrientation, h]
  · intro hret
    apply hnoopE
    revert hret
    simp only [AccelerationSensor.enable]
    split_ifs <;> simp_all
  · intro hret
    apply hnoopO
    revert hret
    simp only [AccelerationSensor.enableOrientation]
    split_ifs <;> simp_all

/-- Enabling the accelerometer twice: the second call does nothing. -/
theorem C14_unchanged_desire_noop_witness :
    (exampleAccel.enable 0 1 ⟨0, 0⟩).ret = 0 ∧
    (exampleAccel.enable 0 1 ⟨0, 0⟩).sensor.enable 0 1 ⟨-1, 5⟩
      = { ret := 0, sensor := (exampleAccel.enable 0 1 ⟨0, 0⟩).sensor, effects := [] } :=
  ⟨by decide,
    (C14_unchanged_desire_noop exampleAccel 0 1 ⟨0, 0⟩ ⟨-1, 5⟩).2.2.1 (by decide)⟩

/-- C15: delay conversion. For every non-negative ns, setDelay hands to the SET_DELAY ioctl the
quotient floor(ns / 1000000) stored in a signed 16-bit field: the quotient itself when it is at
most 32767, and otherwise the value in [-32768, 32767] congruent to it modulo 2^16 (wrap-around,
no clamping). -/
theorem C15_delay_conversion {F : Type} (s : AccelerationSensor F) (ns : Int)
    (io : IoctlOutcome) (hns : 0 ≤ ns) :
    ∃ delay : Int,
      ioctlsOf (s.setDelay ns io).effects = [IoctlCall.KXTF9_IOCTL_SET_DELAY delay] ∧
      (ns / 1000000 ≤ 32767 → delay = ns / 1000000) ∧
      -32768 ≤ delay ∧ delay ≤ 32767 ∧
      (delay - ns / 1000000) % 65536 = 0 ∧
      delay = (ns / 1000000 + 32768) % 65536 - 32768 := by
  have hdiv : Int.tdiv ns 1000000 = ns / 1000000 := Int.tdiv_eq_ediv hns (by decide)
  have hq : 0 ≤ ns / 1000000 := Int.ediv_nonneg hns (by decide)
  have hneg : ¬ ns < 0 := not_lt.mpr hns
  refine ⟨toShort (Int.tdiv ns 1000000), ?_, ?_, ?_, ?_, ?_, ?_⟩
  · simp only [AccelerationSensor.setDelay, if_neg hneg]
    split_ifs <;> rfl
  · intro hle
    rw [hdiv]
    unfold toShort
    omega
  · unfold toShort
    omega
  · unfold toShort
    omega
  · rw [hdiv]
    unfold toShort
    omega
  · rw [hdiv]
    rfl

/-- A delay of 40 s wraps: 40000 ms is handed over as -25536. -/
theorem C15_delay_conversion_witness :
    (0 : Int) ≤ 40000000000 ∧
    ∃ delay : Int,
      ioctlsOf (exampleAccel.setDelay 40000000000 ⟨0, 0⟩).effects
        = [IoctlCall.KXTF9_IOCTL_SET_DELAY delay] ∧
      delay = -25536 := by
  refine ⟨by decide, ?_⟩
  obtain ⟨delay, h1, _, _, _, _, h6⟩ :=
    C15_delay_conversion exampleAccel 40000000000 ⟨0, 0⟩ (by decide)
  exact ⟨delay, h1, h6.trans (by decide)⟩

/-- C20: the synthetic flag of the light adapter does not depend on the enable transition. In
every state enable with a non-zero argument sets the flag, also when mEnabled is already 1 and
the flag is clear, and enable(0) leaves the flag as it is. So after enable(1) then enable(0),
hasPendingEvents() is true and the next readEvents with count of at least 1 returns 0, still
writes the pending sample (stamped with the now-timestamp) to slot 0, clears the flag and leaves
the reader untouched, without a fill. -/
theorem C20_synthetic_flag_independent {F : Type} [NatCast F] (P : Platform F)
    (l : LightSensor F) (handle handle2 en count now : Int) (rd : ReadOutcome)
    (hen : en ≠ 0) (hcount : 1 ≤ count) :
    (l.enable handle en).sensor.mHasPendingEvent = true ∧
    (l.enable handle 0).sensor.mHasPendingEvent = l.mHasPendingEvent ∧
    ((l.enable handle en).sensor.enable handle2 0).sensor.hasPendingEvents = true ∧
    (LightSensor.readEvents P ((l.enable handle en).sensor.enable handle2 0).sensor count now
      rd).ret = 0 ∧
    (LightSensor.readEvents P ((l.enable handle en).sensor.enable handle2 0).sensor count now
      rd).data = [{ l.mPendingEvent with timestamp := now }] ∧
    (LightSensor.readEvents P ((l.enable handle en).sensor.enable handle2 0).sensor count now
      rd).sensor.mHasPendingEvent = false ∧
    (LightSensor.readEvents P ((l.enable handle en).sensor.enable handle2 0).sensor count now
      rd).sensor.mInputReader = l.mInputReader ∧
    (LightSensor.readEvents P ((l.enable handle en).sensor.enable handle2 0).sensor count now
      rd).effects = [Effect.getTimestamp] := by
  have h1 : ¬ count < 1 := not_lt.mpr hcount
  refine ⟨?_, ?_, ?_, ?_, ?_, ?_, ?_, ?_⟩ <;>
    simp [LightSensor.enable, LightSensor.readEvents, LightSensor.hasPendingEvents, hen, h1]

/-- The calls enable(1), enable(0), readEvents(buf, 4) on the fresh light adapter. -/
theorem C20_synthetic_flag_independent_witness :
    (1 : Int) ≠ 0 ∧ (1 : Int) ≤ 4 ∧
    ((exampleLight.enable 0 1).sensor.enable 0 0).sensor.hasPendingEvents = true ∧
    (LightSensor.readEvents examplePlatform ((exampleLight.enable 0 1).sensor.enable 0 0).sensor
      4 77 (ReadOutcome.records [synRecord 1 0])).ret = 0 ∧
    (LightSensor.readEvents examplePlatform ((exampleLight.enable 0 1).sensor.enable 0 0).sensor
      4 77 (ReadOutcome.records [synRecord 1 0])).data
      = [{ exampleLight.mPendingEvent with timestamp := 77 }] :=
  ⟨by decide, by decide,
    (C20_synthetic_flag_independent examplePlatform exampleLight 0 0 1 4 77
      (ReadOutcome.records [synRecord 1 0]) (by decide) (by decide)).2.2.1,
    (C20_synthetic_flag_independent examplePlatform exampleLight 0 0 1 4 77
      (ReadOutcome.records [synRecord 1 0]) (by decide) (by decide)).2.2.2.1,
    (C20_synthetic_flag_independent examplePlatform exampleLight 0 0 1 4 77
      (ReadOutcome.records [synRecord 1 0]) (by decide) (by decide)).2.2.2.2.1⟩

/-! ## Ordering, spurious records and the light conversion -/

/-- Every slot written by the loop comes from a SYNC record of the buffered records: slot `j`
holds the pending sample as it is after the records before the `j`-th SYNC (counting from 0),
stamped with the time of that SYNC. -/
theorem readLoop_event_origin {F : Type} {en : Int}
    {upd : sensors_event_t F → input_event → sensors_event_t F}
    {body : LoopState F → input_event → LoopState F} (hb : DecodeBody en upd body)
    (buf : List input_event) (st : LoopState F) (hdata : st.data = [])
    (hnum : st.numEventReceived = 0) (hc : 0 ≤ st.count) (j : Nat) (ev : sensors_event_t F)
    (hget : (readLoop body buf st).1.data[j]? = some ev) :
    ∃ pre sync post, buf = pre ++ sync :: post ∧ sync.type = EV_SYN ∧
      (syncRecords pre).length = j ∧
      ev = { pre.foldl upd st.mPendingEvent with timestamp := timevalToNano sync.time } := by
  have hen : en ≠ 0 := by
    intro hdis
    rw [(readLoop_no_emit hb buf (Or.inl hdis) st).2.1, hdata] at hget
    simp at hget
  have hn := readLoop_num_enabled hb hen buf st hc
  have hlen := readLoop_data_length hb buf st
  rw [hdata, hnum] at hlen
  rw [hnum] at hn
  simp only [List.length_nil, Nat.cast_zero, sub_self, zero_add] at hn hlen
  have hj : j < (readLoop body buf st).1.data.length := by
    by_contra hge
    rw [List.getElem?_eq_none (by omega)] at hget
    simp at hget
  have hjk : j < (syncRecords buf).length := by omega
  have hjc : (j : Int) < st.count := by omega
  obtain ⟨pre, sync, post, hsplit, hsync, hpre⟩ := syncRecords_split buf j hjk
  have hemit := readLoop_emits_at hb hen pre post sync hsync st hdata (by rw [hpre]; exact hjc)
  rw [← hsplit, hpre, hget] at hemit
  exact ⟨pre, sync, post, hsplit, hsync, hpre, Option.some.inj hemit⟩

/-- The timestamps written by the loop are non-decreasing when the times of the buffered SYNC
records are. -/
theorem readLoop_timestamps_sorted {F : Type} {en : Int}
    {upd : sensors_event_t F → input_event → sensors_event_t F}
    {body : LoopState F → input_event → LoopState F} (hb : DecodeBody en upd body)
    (buf : List input_event) (st : LoopState F) (hdata : st.data = []) (hc : 0 ≤ st.count)
    (hsorted : ((syncRecords buf).map (fun e => timevalToNano e.time)).Pairwise
      (fun x y => x ≤ y)) :
    ((readLoop body buf st).1.data.map (fun e => e.timestamp)).Pairwise (fun x y => x ≤ y) := by
  by_cases hen : en = 0
  · rw [(readLoop_no_emit hb buf (Or.inl hen) st).2.1, hdata]
    exact List.Pairwise.nil
  · rw [readLoop_timestamps hb hen buf st hc, hdata, List.map_nil, List.nil_append,
      List.map_take]
    exact List.Pairwise.sublist (List.take_sublist _ _) hsorted

/-- C16 (as stated): two SYNC records whose kernel times decrease (2 s, then 1 s) are emitted in
arrival order by one call, so the emitted timestamps decrease. -/
theorem C16_counterexample_decreasing_times :
    (AccelerationSensor.readEvents examplePlatform (exampleAccel.enable 0 1 ⟨0, 0⟩).sensor 2
      (ReadOutcome.records [synRecord 2 0, synRecord 1 0])).data.map (fun e => e.timestamp)
      = [2000000000, 1000000000] ∧
    ¬ ((AccelerationSensor.readEvents examplePlatform (exampleAccel.enable 0 1 ⟨0, 0⟩).sensor 2
      (ReadOutcome.records [synRecord 2 0, synRecord 1 0])).data.map
        (fun e => e.timestamp)).Pairwise (fun x y => x ≤ y) := by
  have h : (AccelerationSensor.readEvents examplePlatform (exampleAccel.enable 0 1 ⟨0, 0⟩).sensor 2
      (ReadOutcome.records [synRecord 2 0, synRecord 1 0])).data.map (fun e => e.timestamp)
      = [2000000000, 1000000000] := by decide
  refine ⟨h, ?_⟩
  rw [h]
  simp

/-- C16 (amended): ordering within one call. On the decode path of either adapter the event in
slot i comes from the i-th SYNC record processed in the call: it is the pending sample at that
SYNC stamped with the SYNC's kernel time. The emitted timestamps are non-decreasing in output
order whenever the kernel times of the buffered SYNC records are non-decreasing in arrival
order; the synthetic light emission is a single event. -/
theorem C16_emission_order {F : Type} [Mul F] [IntCast F] [NatCast F] (P : Platform F)
    (a : AccelerationSensor F) (l : LightSensor F) (count now : Int) (rs : List input_event) :
    (∀ (j : Nat) (ev : sensors_event_t F),
      (AccelerationSensor.readEvents P a count (ReadOutcome.records rs)).data[j]? = some ev →
      ∃ pre sync post,
        (a.mInputReader.fill (ReadOutcome.records rs)).1.mBuffer = pre ++ sync :: post ∧
        sync.type = EV_SYN ∧ (syncRecords pre).length = j ∧
        ev = { pre.foldl (AccelerationSensor.pendingAfter P) a.mPendingEvent with
          timestamp := timevalToNano sync.time }) ∧
    (l.mHasPendingEvent = false → ∀ (j : Nat) (ev : sensors_event_t F),
      (LightSensor.readEvents P l count now (ReadOutcome.records rs)).data[j]? = some ev →
      ∃ pre sync post,
        (l.mInputReader.fill (ReadOutcome.records rs)).1.mBuffer = pre ++ sync :: post ∧
        sync.type = EV_SYN ∧ (syncRecords pre).length = j ∧
        ev = { pre.foldl (LightSensor.pendingAfter P) l.mPendingEvent with
          timestamp := timevalToNano sync.time }) ∧
    (((syncRecords (a.mInputReader.fill (ReadOutcome.records rs)).1.mBuffer).map
        (fun e => timevalToNano e.time)).Pairwise (fun x y => x ≤ y) →
      ((AccelerationSensor.readEvents P a count (ReadOutcome.records rs)).data.map
        (fun e => e.timestamp)).Pairwise (fun x y => x ≤ y)) ∧
    (((syncRecords (l.mInputReader.fill (ReadOutcome.records rs)).1.mBuffer).map
        (fun e => timevalToNano e.time)).Pairwise (fun x y => x ≤ y) →
      ((LightSensor.readEvents P l count now (ReadOutcome.records rs)).data.map
        (fun e => e.timestamp)).Pairwise (fun x y => x ≤ y)) := by
  by_cases hcount : 1 ≤ count
  · have hc0 : (0 : Int) ≤ count := by omega
    refine ⟨?_, ?_, ?_, ?_⟩
    · intro j ev hget
      rw [accel_readEvents_records P a count rs hcount] at hget
      exact readLoop_event_origin (accel_readBody_decodeBody P a.mEnabled) _
        ⟨count, 0, [], a.mPendingEvent, [Effect.fill]⟩ rfl rfl hc0 j ev hget
    · intro hpend j ev hget
      rw [light_readEvents_records P l count now rs hcount hpend] at hget
      exact readLoop_event_origin (light_readBody_decodeBody P l.mEnabled) _
        ⟨count, 0, [], l.mPendingEvent, [Effect.fill]⟩ rfl rfl hc0 j ev hget
    · intro hsorted
      rw [accel_readEvents_records P a count rs hcount]
      exact readLoop_timestamps_sorted (accel_readBody_decodeBody P a.mEnabled) _
        ⟨count, 0, [], a.mPendingEvent, [Effect.fill]⟩ rfl hc0 hsorted
    · intro hsorted
      by_cases hpend : l.mHasPendingEvent = true
      · have h1 : ¬ count < 1 := not_lt.mpr hcount
        simp [LightSensor.readEvents, h1, hpend]
      · have hpend2 : l.mHasPendingEvent = false := by simpa using hpend
        rw [light_readEvents_records P l count now rs hcount hpend2]
        exact readLoop_timestamps_sorted (light_readBody_decodeBody P l.mEnabled) _
          ⟨count, 0, [], l.mPendingEvent, [Effect.fill]⟩ rfl hc0 hsorted
  · have hlt : count < 1 := by omega
    refine ⟨?_, ?_, ?_, ?_⟩
    · intro j ev hget
      simp [AccelerationSensor.readEvents, hlt] at hget
    · intro _ j ev hget
      simp [LightSensor.readEvents, hlt] at hget
    · intro _
      simp [AccelerationSensor.readEvents, hlt]
    · intro _
      simp [LightSensor.readEvents, hlt]

/-- Two SYNC records at 1 s and 2 s on the enabled accelerometer: the timestamps written are
non-decreasing. -/
theorem C16_emission_order_witness :
    ((syncRecords ((exampleAccel.enable 0 1 ⟨0, 0⟩).sensor.mInputReader.fill
      (ReadOutcome.records [synRecord 1 0, absRecord 0 7, synRecord 2 0])).1.mBuffer).map
        (fun e => timevalToNano e.time)).Pairwise (fun x y => x ≤ y) ∧
    ((AccelerationSensor.readEvents examplePlatform (exampleAccel.enable 0 1 ⟨0, 0⟩).sensor 4
      (ReadOutcome.records [synRecord 1 0, absRecord 0 7, synRecord 2 0])).data.map
        (fun e => e.timestamp)).Pairwise (fun x y => x ≤ y) :=
  have hsorted : ((syncRecords ((exampleAccel.enable 0 1 ⟨0, 0⟩).sensor.mInputReader.fill
      (ReadOutcome.records [synRecord 1 0, absRecord 0 7, synRecord 2 0])).1.mBuffer).map
        (fun e => timevalToNano e.time)).Pairwise (fun x y => x ≤ y) := by
    have h : (syncRecords ((exampleAccel.enable 0 1 ⟨0, 0⟩).sensor.mInputReader.fill
      (ReadOutcome.records [synRecord 1 0, absRecord 0 7, synRecord 2 0])).1.mBuffer).map
        (fun e => timevalToNano e.time) = [1000000000, 2000000000] := by decide
    rw [h]
    simp
  ⟨hsorted,
    (C16_emission_order examplePlatform (exampleAccel.enable 0 1 ⟨0, 0⟩).sensor exampleLight 4 0
      [synRecord 1 0, absRecord 0 7, synRecord 2 0]).2.2.1 hsorted⟩

/-- The light loop body does nothing for a record with type 4 and code 3. -/
theorem light_readBody_spurious {F : Type} [NatCast F] (P : Platform F) (en : Int)
    (st : LoopState F) (ev : input_event) (ht : ev.type = 4) (hcode : ev.code = 3) :
    LightSensor.readBody P en st ev = st := by
  simp [LightSensor.readBody, ht, hcode, EV_LED, EV_SYN]

/-- The final loop state of the light adapter is the same with and without the spurious
records. -/
theorem light_readLoop_dropSpurious {F : Type} [NatCast F] (P : Platform F) (en : Int)
    (buf : List input_event) :
    ∀ st : LoopState F,
      (readLoop (LightSensor.readBody P en) buf st).1
        = (readLoop (LightSensor.readBody P en) (dropSpurious buf) st).1 := by
  induction buf with
  | nil => intro st; rfl
  | cons ev rest ih =>
    intro st
    by_cases hc : st.count = 0
    · have hstop : ∀ b : List input_event,
          (readLoop (LightSensor.readBody P en) b st).1 = st := by
        intro b
        cases b with
        | nil => rfl
        | cons e es => rw [readLoop, if_pos hc]
      rw [hstop, hstop]
    · rw [readLoop, if_neg hc]
      by_cases hsp : ev.type = 4 ∧ ev.code = 3
      · have hdrop : dropSpurious (ev :: rest) = dropSpurious rest := by
          simp [dropSpurious, List.filter_cons, hsp]
        rw [hdrop, light_readBody_spurious P en st ev hsp.1 hsp.2]
        exact ih st
      · have hdrop : dropSpurious (ev :: rest) = ev :: dropSpurious rest := by
          simp only [dropSpurious, List.filter_cons, hsp, decide_False, Bool.not_false, if_true]
        rw [hdrop, readLoop, if_neg hc]
        exact ih _

/-- C18: spurious-record suppression in the light adapter. On the descriptor-draining path a
record with type 4 and code 3 changes nothing in the loop (pending sample, output, counters,
log) and readEvents never touches mEnabled or the synthetic flag; hence two calls that start
from the same latch and pending sample and whose buffered record sequences differ only by such
records produce the same return value, the same events, the same trace (log included) and the
same pending sample. The records LED/LIGHT = 5, (4,3) = 0, SYNC at 2 s yield one event with
light = indexToValue(5) and timestamp 2000000000 ns and no log line. -/
theorem C18_spurious_suppressed {F : Type} [NatCast F] (P : Platform F) :
    (∀ (en : Int) (st : LoopState F) (ev : input_event), ev.type = 4 → ev.code = 3 →
      LightSensor.readBody P en st ev = st) ∧
    (∀ (l : LightSensor F) (count now : Int) (rs : List input_event),
      1 ≤ count → l.mHasPendingEvent = false →
      (LightSensor.readEvents P l count now (ReadOutcome.records rs)).sensor.mEnabled
        = l.mEnabled ∧
      (LightSensor.readEvents P l count now
        (ReadOutcome.records rs)).sensor.mHasPendingEvent = false) ∧
    (∀ (l1 l2 : LightSensor F) (count now1 now2 : Int) (rs1 rs2 : List input_event),
      1 ≤ count → l1.mHasPendingEvent = false → l2.mHasPendingEvent = false →
      l1.mEnabled = l2.mEnabled → l1.mPendingEvent = l2.mPendingEvent →
      dropSpurious (l1.mInputReader.fill (ReadOutcome.records rs1)).1.mBuffer
        = dropSpurious (l2.mInputReader.fill (ReadOutcome.records rs2)).1.mBuffer →
      (LightSensor.readEvents P l1 count now1 (ReadOutcome.records rs1)).ret
        = (LightSensor.readEvents P l2 count now2 (ReadOutcome.records rs2)).ret ∧
      (LightSensor.readEvents P l1 count now1 (ReadOutcome.records rs1)).data
        = (LightSensor.readEvents P l2 count now2 (ReadOutcome.records rs2)).data ∧
      (LightSensor.readEvents P l1 count now1 (ReadOutcome.records rs1)).effects
        = (LightSensor.readEvents P l2 count now2 (ReadOutcome.records rs2)).effects ∧
      (LightSensor.readEvents P l1 count now1 (ReadOutcome.records rs1)).sensor.mPendingEvent
        = (LightSensor.readEvents P l2 count now2
            (ReadOutcome.records rs2)).sensor.mPendingEvent) ∧
    (∀ (l : LightSensor F) (count now value2 : Int) (t1 t2 : timeval) (code3 : Nat)
      (value3 : Int),
      1 ≤ count → l.mHasPendingEvent = false → l.mEnabled ≠ 0 →
      l.mInputReader.mBuffer = [] → 3 ≤ l.mInputReader.numEvents →
      (5 : Int) < 2 ^ P.SIZE_T_BITS →
      (LightSensor.readEvents P l count now
        (ReadOutcome.records
          [⟨t1, EV_LED, P.EVENT_TYPE_LIGHT, 5⟩, ⟨t2, 4, 3, value2⟩,
            ⟨⟨2, 0⟩, EV_SYN, code3, value3⟩])).ret = 1 ∧
      (LightSensor.readEvents P l count now
        (ReadOutcome.records
          [⟨t1, EV_LED, P.EVENT_TYPE_LIGHT, 5⟩, ⟨t2, 4, 3, value2⟩,
            ⟨⟨2, 0⟩, EV_SYN, code3, value3⟩])).data
        = [{ l.mPendingEvent with
            light := LightSensor.indexToValue 5, timestamp := 2000000000 }] ∧
      logsOf (LightSensor.readEvents P l count now
        (ReadOutcome.records
          [⟨t1, EV_LED, P.EVENT_TYPE_LIGHT, 5⟩, ⟨t2, 4, 3, value2⟩,
            ⟨⟨2, 0⟩, EV_SYN, code3, value3⟩])).effects = []) := by
  refine ⟨?_, ?_, ?_, ?_⟩
  · intro en st ev ht hcode
    exact light_readBody_spurious P en st ev ht hcode
  · intro l count now rs hcount hpend
    rw [light_readEvents_records P l count now rs hcount hpend]
    exact ⟨rfl, hpend⟩
  · intro l1 l2 count now1 now2 rs1 rs2 hcount hp1 hp2 hen hpe hbuf
    rw [light_readEvents_records P l1 count now1 rs1 hcount hp1,
      light_readEvents_records P l2 count now2 rs2 hcount hp2]
    dsimp only
    rw [light_readLoop_dropSpurious P l1.mEnabled
        (l1.mInputReader.fill (ReadOutcome.records rs1)).1.mBuffer,
      light_readLoop_dropSpurious P l2.mEnabled
        (l2.mInputReader.fill (ReadOutcome.records rs2)).1.mBuffer, hbuf, hen, hpe]
    exact ⟨rfl, rfl, rfl, rfl⟩
  · intro l count now value2 t1 t2 code3 value3 hcount hpend hen hbuf hcap hbits
    rw [light_readEvents_records P l count now _ hcount hpend]
    have hfill : (l.mInputReader.fill
        (ReadOutcome.records
          [⟨t1, EV_LED, P.EVENT_TYPE_LIGHT, 5⟩, ⟨t2, 4, 3, value2⟩,
            ⟨⟨2, 0⟩, EV_SYN, code3, value3⟩])).1.mBuffer
        = [⟨t1, EV_LED, P.EVENT_TYPE_LIGHT, 5⟩, ⟨t2, 4, 3, value2⟩,
            ⟨⟨2, 0⟩, EV_SYN, code3, value3⟩] := by
      obtain ⟨n, hn⟩ : ∃ n, l.mInputReader.numEvents = n + 3 :=
        ⟨l.mInputReader.numEvents - 3, by omega⟩
      simp [InputEventCircularReader.fill, hbuf, hn]
    have hidx : toSizeT P 5 = 5 := by
      unfold toSizeT
      rw [Int.emod_eq_of_lt (by decide) hbits]
      rfl
    have hc : ¬ count = 0 := by omega
    dsimp only
    rw [hfill]
    simp [readLoop, hc, LightSensor.readBody, hen, hidx, EV_SYN, EV_LED, logsOf, timevalToNano]

/-- The records LED/LIGHT = 5, (4,3) = 0, SYNC at 2 s on the enabled light adapter whose
synthetic event has been drained. -/
theorem C18_spurious_suppressed_witness :
    (LightSensor.readEvents examplePlatform
      (LightSensor.readEvents examplePlatform (exampleLight.enable 0 1).sensor 4 0
        (ReadOutcome.records [])).sensor 4 0
      (ReadOutcome.records
        [⟨⟨0, 0⟩, EV_LED, examplePlatform.EVENT_TYPE_LIGHT, 5⟩, ⟨⟨0, 0⟩, 4, 3, 0⟩,
          ⟨⟨2, 0⟩, EV_SYN, 0, 0⟩])).data.map (fun e => (e.light, e.timestamp))
      = [(5, 2000000000)] := by
  have h := ((C18_spurious_suppressed examplePlatform).2.2.2
    (LightSensor.readEvents examplePlatform (exampleLight.enable 0 1).sensor 4 0
      (ReadOutcome.records [])).sensor 4 0 0 ⟨0, 0⟩ ⟨0, 0⟩ 0 0
    (by decide) (by decide) (by decide) (by decide) (by decide) (by decide)).2.1
  rw [h]
  decide

/-- C19 (as stated): on a platform with a 32-bit size_t, a LIGHT record with value -1 sets the
pending light value to 4294967295, not -1, and the smaller record value -1 gives a larger light
value than the record value 0. -/
theorem C19_counterexample_negative_value :
    (LightSensor.readEvents examplePlatform exampleLight 1 0
      (ReadOutcome.records [⟨⟨0, 0⟩, EV_LED, examplePlatform.EVENT_TYPE_LIGHT, -1⟩])
      ).sensor.mPendingEvent.light = 4294967295 ∧
    (LightSensor.readEvents examplePlatform exampleLight 1 0
      (ReadOutcome.records [⟨⟨0, 0⟩, EV_LED, examplePlatform.EVENT_TYPE_LIGHT, 0⟩])
      ).sensor.mPendingEvent.light = 0 ∧
    (-1 : Int) ≤ 0 ∧ ¬ ((4294967295 : Int) ≤ 0) := by
  decide

/-- C19 (amended): the light index conversion. A LED-CHANNEL record with code LIGHT and a
non-negative value v that fits size_t sets the pending light value to v converted to float
(indexToValue is the identity on the index); a negative v is first converted to size_t, giving
v + 2^SIZE_T_BITS; and for non-negative values v1 ≤ v2 the light values are ordered the same
way, the integer-to-float conversion being monotone. -/
theorem C19_light_conversion {F : Type} [NatCast F] [Preorder F] (P : Platform F) (en : Int)
    (st : LoopState F) (t : timeval) :
    (∀ v : Int, 0 ≤ v → v < 2 ^ P.SIZE_T_BITS →
      (LightSensor.readBody P en st ⟨t, EV_LED, P.EVENT_TYPE_LIGHT, v⟩).mPendingEvent.light
        = ((v.toNat : Nat) : F)) ∧
    (∀ v : Int, v < 0 → -(2 ^ P.SIZE_T_BITS) ≤ v →
      (LightSensor.readBody P en st ⟨t, EV_LED, P.EVENT_TYPE_LIGHT, v⟩).mPendingEvent.light
        = (((v + 2 ^ P.SIZE_T_BITS).toNat : Nat) : F)) ∧
    (∀ index : Nat, (LightSensor.indexToValue index : F) = (index : F)) ∧
    (Monotone (Nat.cast : Nat → F) → ∀ v1 v2 : Int,
      0 ≤ v1 → v1 ≤ v2 → v2 < 2 ^ P.SIZE_T_BITS →
      (LightSensor.readBody P en st ⟨t, EV_LED, P.EVENT_TYPE_LIGHT, v1⟩).mPendingEvent.light
        ≤ (LightSensor.readBody P en st
            ⟨t, EV_LED, P.EVENT_TYPE_LIGHT, v2⟩).mPendingEvent.light) := by
  have hbody : ∀ v : Int,
      (LightSensor.readBody P en st ⟨t, EV_LED, P.EVENT_TYPE_LIGHT, v⟩).mPendingEvent.light
        = ((toSizeT P v : Nat) : F) := by
    intro v
    simp [LightSensor.readBody, LightSensor.indexToValue]
  have hnonneg : ∀ v : Int, 0 ≤ v → v < 2 ^ P.SIZE_T_BITS → toSizeT P v = v.toNat := by
    intro v h0 hlt
    unfold toSizeT
    rw [Int.emod_eq_of_lt h0 hlt]
  refine ⟨?_, ?_, ?_, ?_⟩
  · intro v h0 hlt
    rw [hbody, hnonneg v h0 hlt]
  · intro v hneg hge
    rw [hbody]
    congr 2
    unfold toSizeT
    have hpos : (0 : Int) < 2 ^ P.SIZE_T_BITS := by positivity
    rw [← Int.add_emod_self, Int.emod_eq_of_lt (by omega) (by omega)]
  · intro index
    rfl
  · intro hmono v1 v2 h0 hle hlt
    rw [hbody, hbody, hnonneg v1 h0 (by omega), hnonneg v2 (by omega) hlt]
    exact hmono (Int.toNat_le_toNat hle)

/-- The record values 5 and 9 on the 32-bit platform over the integers. -/
theorem C19_light_conversion_witness :
    Monotone (Nat.cast : Nat → Int) ∧ (0 : Int) ≤ 5 ∧ (5 : Int) ≤ 9 ∧
    (9 : Int) < 2 ^ examplePlatform.SIZE_T_BITS ∧
    (LightSensor.readBody examplePlatform 1 ⟨1, 0, [], exampleLight.mPendingEvent, []⟩
      ⟨⟨0, 0⟩, EV_LED, examplePlatform.EVENT_TYPE_LIGHT, 5⟩).mPendingEvent.light
      ≤ (LightSensor.readBody examplePlatform 1 ⟨1, 0, [], exampleLight.mPendingEvent, []⟩
          ⟨⟨0, 0⟩, EV_LED, examplePlatform.EVENT_TYPE_LIGHT, 9⟩).mPendingEvent.light :=
  ⟨Nat.mono_cast, by decide, by decide, by decide,
    (C19_light_conversion examplePlatform 1 ⟨1, 0, [], exampleLight.mPendingEvent, []⟩
      ⟨0, 0⟩).2.2.2 Nat.mono_cast 5 9 (by decide) (by decide) (by decide)⟩

/-! ## Records beyond a full output buffer -/

theorem uptoSync_nil (n : Nat) : uptoSync n [] = [] := by
  cases n <;> rfl

/-- The records selected by `uptoSync` are a prefix of the sequence. -/
theorem uptoSync_append_drop (buf : List input_event) :
    ∀ n, uptoSync n buf ++ buf.drop (uptoSync n buf).length = buf := by
  induction buf with
  | nil => intro n; rw [uptoSync_nil]; rfl
  | cons ev rest ih =>
    intro n
    cases n with
    | zero => rfl
    | succ m =>
      by_cases hs : ev.type = EV_SYN
      · simp only [uptoSync, if_pos hs, List.length_cons, List.drop_succ_cons, List.cons_append]
        rw [ih m]
      · simp only [uptoSync, if_neg hs, List.length_cons, List.drop_succ_cons, List.cons_append]
        rw [ih (m + 1)]

/-- Consuming with capacity `n1 + n2` is consuming with capacity `n1` and then, from what is
left, with capacity `n2`. -/
theorem uptoSync_add (n2 : Nat) (buf : List input_event) :
    ∀ n1, uptoSync (n1 + n2) buf
      = uptoSync n1 buf ++ uptoSync n2 (buf.drop (uptoSync n1 buf).length) := by
  induction buf with
  | nil => intro n1; simp [uptoSync_nil]
  | cons ev rest ih =>
    intro n1
    cases n1 with
    | zero => simp [uptoSync]
    | succ m =>
      rw [Nat.succ_add]
      by_cases hs : ev.type = EV_SYN
      · simp only [uptoSync, if_pos hs, List.length_cons, List.drop_succ_cons, List.cons_append]
        rw [ih m]
      · simp only [uptoSync, if_neg hs, List.length_cons, List.drop_succ_cons, List.cons_append]
        rw [show m + n2 + 1 = m + 1 + n2 by omega, ih (m + 1)]

/-- The number of SYNC records that `uptoSync` selects. -/
theorem syncRecords_uptoSync (buf : List input_event) :
    ∀ n, (syncRecords (uptoSync n buf)).length = min n (syncRecords buf).length := by
  induction buf with
  | nil => intro n; simp [uptoSync_nil, syncRecords]
  | cons ev rest ih =>
    intro n
    cases n with
    | zero => simp [uptoSync, syncRecords]
    | succ m =>
      by_cases hs : ev.type = EV_SYN
      · simp only [uptoSync, if_pos hs, syncRecords_cons, List.length_cons, ih m]
        omega
      · simp only [uptoSync, if_neg hs, syncRecords_cons, ih (m + 1)]

/-- With the latch set, the loop started with capacity `n` consumes exactly `uptoSync n` of the
buffered records and leaves the others. -/
theorem readLoop_uptoSync {F : Type} {en : Int}
    {upd : sensors_event_t F → input_event → sensors_event_t F}
    {body : LoopState F → input_event → LoopState F} (hb : DecodeBody en upd body)
    (hen : en ≠ 0) (buf : List input_event) :
    ∀ (n : Nat) (st : LoopState F), st.count = (n : Int) →
      readLoop body buf st
        = ((uptoSync n buf).foldl body st, buf.drop (uptoSync n buf).length) := by
  induction buf with
  | nil => intro n st _; rw [uptoSync_nil]; rfl
  | cons ev rest ih =>
    intro n st hn
    cases n with
    | zero =>
      have hc : st.count = 0 := by simpa using hn
      rw [readLoop, if_pos hc]
      rfl
    | succ m =>
      have hc : ¬ st.count = 0 := by
        rw [hn]
        push_cast
        omega
      rw [readLoop, if_neg hc]
      have hcnt := hb.count_eq st ev
      by_cases hs : ev.type = EV_SYN
      · rw [if_pos ⟨hs, hen⟩, hn] at hcnt
        rw [ih m (body st ev) (by rw [hcnt]; push_cast; omega)]
        simp only [uptoSync, if_pos hs, List.foldl_cons, List.length_cons, List.drop_succ_cons]
      · rw [if_neg (fun hh => hs hh.1), hn] at hcnt
        rw [ih (m + 1) (body st ev) hcnt]
        simp only [uptoSync, if_neg hs, List.foldl_cons, List.length_cons, List.drop_succ_cons]

/-- The slots that a fold of the body appends, and the pending sample it ends with, depend on the
starting state through its pending sample only. -/
theorem foldl_body_data_indep {F : Type} {en : Int}
    {upd : sensors_event_t F → input_event → sensors_event_t F}
    {body : LoopState F → input_event → LoopState F} (hb : DecodeBody en upd body)
    (recs : List input_event) :
    ∀ st st2 : LoopState F, st.mPendingEvent = st2.mPendingEvent →
      ∃ more, (recs.foldl body st).data = st.data ++ more ∧
        (recs.foldl body st2).data = st2.data ++ more := by
  induction recs with
  | nil => intro st st2 _; exact ⟨[], by simp, by simp⟩
  | cons ev rest ih =>
    intro st st2 hpe
    have hpe2 : (body st ev).mPendingEvent = (body st2 ev).mPendingEvent := by
      rw [hb.pending_eq, hb.pending_eq, hpe]
    obtain ⟨more, h1, h2⟩ := ih (body st ev) (body st2 ev) hpe2
    rw [List.foldl_cons, List.foldl_cons, h1, h2, hb.data_eq, hb.data_eq, hpe]
    by_cases hs : ev.type = EV_SYN ∧ en ≠ 0
    · rw [if_pos hs, if_pos hs]
      exact ⟨[upd st2.mPendingEvent ev] ++ more, by simp, by simp⟩
    · rw [if_neg hs, if_neg hs]
      exact ⟨more, rfl, rfl⟩

/-- The accelerometer `readEvents` with the latch set, in terms of `uptoSync`: the call folds
the loop body over the records selected by `uptoSync count` and leaves the others buffered. -/
theorem accel_readEvents_enabled {F : Type} [Mul F] [IntCast F] (P : Platform F)
    (a : AccelerationSensor F) (count : Int) (rs buf : List input_event) (hcount : 1 ≤ count)
    (hen : a.mEnabled ≠ 0)
    (hbuf : (a.mInputReader.fill (ReadOutcome.records rs)).1.mBuffer = buf) :
    (AccelerationSensor.readEvents P a count (ReadOutcome.records rs)).data
      = ((uptoSync count.toNat buf).foldl (AccelerationSensor.readBody P a.mEnabled)
          ⟨count, 0, [], a.mPendingEvent, [Effect.fill]⟩).data ∧
    (AccelerationSensor.readEvents P a count (ReadOutcome.records rs)).sensor.mPendingEvent
      = (uptoSync count.toNat buf).foldl (AccelerationSensor.pendingAfter P) a.mPendingEvent ∧
    (AccelerationSensor.readEvents P a count (ReadOutcome.records rs)).sensor.mInputReader.mBuffer
      = buf.drop (uptoSync count.toNat buf).length ∧
    (AccelerationSensor.readEvents P a count (ReadOutcome.records rs)).sensor.mEnabled
      = a.mEnabled := by
  have hb := accel_readBody_decodeBody P a.mEnabled
  have hloop := readLoop_uptoSync hb hen buf count.toNat
    ⟨count, 0, [], a.mPendingEvent, [Effect.fill]⟩ (by show count = _; omega)
  rw [accel_readEvents_records P a count rs hcount, hbuf, hloop]
  exact ⟨rfl, foldl_body_pending hb _ _, rfl, rfl⟩

/-- C17: records beyond a full output buffer are kept. For the accelerometer with mEnabled set,
readEvents with capacity c1 consumes exactly the buffered records up to and including the
c1-th SYNC (all of them when there are fewer SYNC records) and leaves the remaining records
buffered, unchanged and in order. Therefore, when the second fill adds no record, the events
written by a call with capacity c1 followed by a call with capacity c2 are the events written by
one call with capacity c1 + c2 on the same records, min(c1 + c2, k) in number, and the final
pending sample and the records left buffered are the same. -/
theorem C17_records_kept {F : Type} [Mul F] [IntCast F] (P : Platform F)
    (a : AccelerationSensor F) (c1 c2 : Int) (rs rs2 buf : List input_event)
    (hen : a.mEnabled ≠ 0) (hc1 : 1 ≤ c1) (hc2 : 1 ≤ c2)
    (hbuf : (a.mInputReader.fill (ReadOutcome.records rs)).1.mBuffer = buf) :
    ((AccelerationSensor.readEvents P a c1 (ReadOutcome.records rs)).sensor.mInputReader.mBuffer
        = buf.drop (uptoSync c1.toNat buf).length ∧
      uptoSync c1.toNat buf
        ++ (AccelerationSensor.readEvents P a c1
            (ReadOutcome.records rs)).sensor.mInputReader.mBuffer = buf ∧
      (AccelerationSensor.readEvents P a c1 (ReadOutcome.records rs)).sensor.mPendingEvent
        = (uptoSync c1.toNat buf).foldl (AccelerationSensor.pendingAfter P) a.mPendingEvent) ∧
    (((AccelerationSensor.readEvents P a c1 (ReadOutcome.records rs)).sensor.mInputReader.fill
        (ReadOutcome.records rs2)).1.mBuffer
      = (AccelerationSensor.readEvents P a c1
          (ReadOutcome.records rs)).sensor.mInputReader.mBuffer →
      (AccelerationSensor.readEvents P a c1 (ReadOutcome.records rs)).data
        ++ (AccelerationSensor.readEvents P
            (AccelerationSensor.readEvents P a c1 (ReadOutcome.records rs)).sensor c2
            (ReadOutcome.records rs2)).data
        = (AccelerationSensor.readEvents P a (c1 + c2) (ReadOutcome.records rs)).data ∧
      ((AccelerationSensor.readEvents P a (c1 + c2) (ReadOutcome.records rs)).data.length : Int)
        = min (c1 + c2) ((syncRecords buf).length : Int) ∧
      (AccelerationSensor.readEvents P
          (AccelerationSensor.readEvents P a c1 (ReadOutcome.records rs)).sensor c2
          (ReadOutcome.records rs2)).sensor.mPendingEvent
        = (AccelerationSensor.readEvents P a (c1 + c2)
            (ReadOutcome.records rs)).sensor.mPendingEvent ∧
      (AccelerationSensor.readEvents P
          (AccelerationSensor.readEvents P a c1 (ReadOutcome.records rs)).sensor c2
          (ReadOutcome.records rs2)).sensor.mInputReader.mBuffer
        = (AccelerationSensor.readEvents P a (c1 + c2)
            (ReadOutcome.records rs)).sensor.mInputReader.mBuffer) := by
  have hb := accel_readBody_decodeBody P a.mEnabled
  obtain ⟨hd1, hp1, hr1, he1⟩ := accel_readEvents_enabled P a c1 rs buf hc1 hen hbuf
  have hc12 : 1 ≤ c1 + c2 := by omega
  obtain ⟨hd, hp, hr, _⟩ := accel_readEvents_enabled P a (c1 + c2) rs buf hc12 hen hbuf
  have hsum : (c1 + c2).toNat = c1.toNat + c2.toNat := by omega
  refine ⟨⟨hr1, ?_, hp1⟩, ?_⟩
  · rw [hr1]
    exact uptoSync_append_drop buf c1.toNat
  · intro hfill2
    have hen2 : (AccelerationSensor.readEvents P a c1 (ReadOutcome.records rs)).sensor.mEnabled
        ≠ 0 := by
      rw [he1]
      exact hen
    obtain ⟨hd2, hp2, hr2, _⟩ := accel_readEvents_enabled P
      (AccelerationSensor.readEvents P a c1 (ReadOutcome.records rs)).sensor c2 rs2
      (buf.drop (uptoSync c1.toNat buf).length) hc2 hen2 (by rw [hfill2, hr1])
    rw [he1, hp1] at hd2
    rw [hp1] at hp2
    rw [hsum, uptoSync_add] at hd hp hr
    rw [List.foldl_append] at hd hp
    refine ⟨?_, ?_, ?_, ?_⟩
    · obtain ⟨m1, hm1, hm1b⟩ := foldl_body_data_indep hb (uptoSync c1.toNat buf)
        ⟨c1, 0, [], a.mPendingEvent, [Effect.fill]⟩
        ⟨c1 + c2, 0, [], a.mPendingEvent, [Effect.fill]⟩ rfl
      obtain ⟨m2, hm2, hm2b⟩ := foldl_body_data_indep hb
        (uptoSync c2.toNat (buf.drop (uptoSync c1.toNat buf).length))
        ⟨c2, 0, [], (uptoSync c1.toNat buf).foldl (AccelerationSensor.pendingAfter P)
          a.mPendingEvent, [Effect.fill]⟩
        ((uptoSync c1.toNat buf).foldl (AccelerationSensor.readBody P a.mEnabled)
          ⟨c1 + c2, 0, [], a.mPendingEvent, [Effect.fill]⟩)
        (by rw [foldl_body_pending hb])
      rw [hd1, hd2, hd, hm1, hm2, hm2b, hm1b]
      simp only [List.nil_append]
    · rw [accel_readEvents_records P a (c1 + c2) rs hc12, hbuf]
      have hnum := readLoop_num_enabled hb hen buf
        ⟨c1 + c2, 0, [], a.mPendingEvent, [Effect.fill]⟩ (by show (0 : Int) ≤ c1 + c2; omega)
      have hlen := readLoop_data_length hb buf ⟨c1 + c2, 0, [], a.mPendingEvent, [Effect.fill]⟩
      simp only [List.length_nil, Nat.cast_zero, sub_self, zero_add] at hnum hlen
      dsimp only
      omega
    · rw [hp2, hp]
    · rw [hr2, hr, List.length_append, List.drop_drop]

/-- Three SYNC records read with capacity 1 and then 1, against one call with capacity 2. -/
theorem C17_records_kept_witness :
    (exampleAccel.enable 0 1 ⟨0, 0⟩).sensor.mEnabled ≠ 0 ∧ (1 : Int) ≤ 1 ∧
    (AccelerationSensor.readEvents examplePlatform (exampleAccel.enable 0 1 ⟨0, 0⟩).sensor 1
      (ReadOutcome.records
        [absRecord 0 7, synRecord 1 0, absRecord 0 8, synRecord 2 0,
          synRecord 3 0])).sensor.mInputReader.mBuffer
      = [absRecord 0 8, synRecord 2 0, synRecord 3 0] ∧
    (AccelerationSensor.readEvents examplePlatform (exampleAccel.enable 0 1 ⟨0, 0⟩).sensor 1
        (ReadOutcome.records
          [absRecord 0 7, synRecord 1 0, absRecord 0 8, synRecord 2 0, synRecord 3 0])).data
      ++ (AccelerationSensor.readEvents examplePlatform
          (AccelerationSensor.readEvents examplePlatform (exampleAccel.enable 0 1 ⟨0, 0⟩).sensor 1
            (ReadOutcome.records
              [absRecord 0 7, synRecord 1 0, absRecord 0 8, synRecord 2 0,
                synRecord 3 0])).sensor 1 (ReadOutcome.records [])).data
      = (AccelerationSensor.readEvents examplePlatform (exampleAccel.enable 0 1 ⟨0, 0⟩).sensor
          (1 + 1)
          (ReadOutcome.records
            [absRecord 0 7, synRecord 1 0, absRecord 0 8, synRecord 2 0, synRecord 3 0])).data :=
  ⟨by decide, by decide,
    ((C17_records_kept examplePlatform (exampleAccel.enable 0 1 ⟨0, 0⟩).sensor 1 1
      [absRecord 0 7, synRecord 1 0, absRecord 0 8, synRecord 2 0, synRecord 3 0] []
      [absRecord 0 7, synRecord 1 0, absRecord 0 8, synRecord 2 0, synRecord 3 0]
      (by decide) (by decide) (by decide) (by decide)).1.1).trans (by decide),
    ((C17_records_kept examplePlatform (exampleAccel.enable 0 1 ⟨0, 0⟩).sensor 1 1
      [absRecord 0 7, synRecord 1 0, absRecord 0 8, synRecord 2 0, synRecord 3 0] []
      [absRecord 0 7, synRecord 1 0, absRecord 0 8, synRecord 2 0, synRecord 3 0]
      (by decide) (by decide) (by decide) (by decide)).2 (by decide)).1⟩

end Sensors
